import Mathlib

/-!
# Verification of the VerdantView group-trip settlement engine and local store

This file gives a shallow embedding, in Lean 4, of the core subsystems of the
VerdantView personal-finance application:

* `src/lib/utils/settlement.ts` — the trip settlement engine
  (`calculateSettlements` and its helpers);
* `src/lib/db/db.ts` — the local persistent store: generic CRUD dispatch
  (`performDBOperation`), `deleteCategory`, the reminder sweep
  (`clearOldReminders`), whole-database import (`importData`) and single-trip
  export/import (`exportTrip` / `importTrip`).

Modelling conventions:

* JavaScript `number` values are embedded as exact rationals (`Rat`).  The
  settlement algorithm's own tolerance constant `0.01` is the rational
  `1/100`.
* `Array.prototype.sort` with a numeric comparator is embedded as a stable
  comparison sort (`List.insertionSort`); ECMAScript requires a stable sort
  and leaves the algorithm itself implementation-defined, and no property
  below depends on how ties are broken.
* The JavaScript `Record<string, number>` built by `calculateSettlements` is
  embedded as a total function `String → Rat` together with the roster that
  delimits its key set; `Object.values` is embedded as mapping the function
  over the deduplicated roster (the record holds one key per distinct roster
  name, in some order; only the multiset of values is ever consumed, via a
  sum).
* The `while` loop of `calculateSettlements` is embedded with explicit fuel
  (`settleLoop`); the source loop has no syntactic bound, and its
  termination is itself one of the verified claims.
* IndexedDB object stores with `autoIncrement` key generators are embedded
  as a record list plus a `nextId` counter (`Col`); adding a record without
  a key assigns `nextId` and increments it, exactly as the key generator
  does for in-line keys that were stripped from the inserted object.
* Calendar timestamps in the reminder sweep are embedded at day granularity
  as integers (`Int`), with "start of the current day" an explicit
  parameter; `setDate(getDate() + repeatInterval)` becomes addition of
  `repeatInterval` whole days.
-/

/-! ## Settlement engine (`src/lib/utils/settlement.ts`) -/

/-- `Settlement` from `settlement.ts`: one proposed transfer.  The source
field `from` is a Lean keyword, hence the escaped name. -/
structure Settlement where
  «from» : String
  «to» : String
  amount : Rat
deriving DecidableEq

/- `Rat.add`, `Rat.mul`, `Rat.inv` and `Rat.sub` are `@[irreducible]` in the
library; unsealing them lets concrete settlement computations be checked by
`decide`. -/
unseal Rat.add Rat.mul Rat.inv Rat.sub

/-- The element type of the `expenses` argument of `calculateSettlements`:
`{ payerName: string; amount: number }`. -/
structure TripExpenseInput where
  payerName : String
  amount : Rat
deriving DecidableEq

/-- One entry of the intermediate `balances` array:
`{ name: string; balance: number }`. -/
structure MemberBalance where
  name : String
  balance : Rat
deriving DecidableEq

/-- Single-key update of the embedded `Record<string, number>`:
`memberTotals[k] = v`. -/
def recordUpdate (f : String → Rat) (k : String) (v : Rat) : String → Rat :=
  fun n => if n = k then v else f n

/-- Step 1 of `calculateSettlements`: the `memberTotals` record after the
two `forEach` loops.  Keys are initialised to `0` for every roster member;
an expense contributes to the record only when
`memberTotals[e.payerName] !== undefined`, i.e. when its `payerName` is a
roster member. -/
def memberTotals (members : List String) (expenses : List TripExpenseInput) :
    String → Rat :=
  expenses.foldl
    (fun tot e =>
      if e.payerName ∈ members then
        recordUpdate tot e.payerName (tot e.payerName + e.amount)
      else
        tot)
    (fun _ => 0)

/-- Step 2 of `calculateSettlements`:
`Object.values(memberTotals).reduce((a, b) => a + b, 0)` — the record has
one key per distinct roster name. -/
def totalTripExpense (members : List String) (expenses : List TripExpenseInput) :
    Rat :=
  (members.dedup.map (memberTotals members expenses)).sum

/-- Step 2 of `calculateSettlements`: `totalTripExpense / members.length`.
(In the source this line is only reached when the roster is non-empty.) -/
def average (members : List String) (expenses : List TripExpenseInput) : Rat :=
  totalTripExpense members expenses / (members.length : Rat)

/-- Step 3 of `calculateSettlements`: the `balances` array. -/
def balances (members : List String) (expenses : List TripExpenseInput) :
    List MemberBalance :=
  members.map (fun name =>
    ⟨name, memberTotals members expenses name - average members expenses⟩)

/-- Step 4 of `calculateSettlements`: debtors, most negative first. -/
def debtors (members : List String) (expenses : List TripExpenseInput) :
    List MemberBalance :=
  ((balances members expenses).filter (fun b => b.balance < -(1/100))).insertionSort
    (fun a b => a.balance ≤ b.balance)

/-- Step 4 of `calculateSettlements`: creditors, most positive first. -/
def creditors (members : List String) (expenses : List TripExpenseInput) :
    List MemberBalance :=
  ((balances members expenses).filter (fun b => b.balance > 1/100)).insertionSort
    (fun a b => b.balance ≤ a.balance)

/-- The `while (dIndex < debtors.length && cIndex < creditors.length)` loop
of `calculateSettlements`, with explicit fuel (one unit per iteration).
Advancing `dIndex` (resp. `cIndex`) past a party is embedded as dropping the
head of the corresponding list; a party whose mutated balance is not yet
within the `0.01` tolerance stays at the head with its updated balance.
`none` means the fuel was exhausted before the loop finished. -/
def settleLoop :
    Nat → List MemberBalance → List MemberBalance → Option (List Settlement)
  | _, [], _ => some []
  | _, _ :: _, [] => some []
  | 0, _ :: _, _ :: _ => none
  | fuel + 1, d :: ds, c :: cs =>
    let amountToPay := min |d.balance| c.balance
    let newDebtorBalance := d.balance + amountToPay
    let newCreditorBalance := c.balance - amountToPay
    let restDebtors :=
      if |newDebtorBalance| < 1/100 then ds else ⟨d.name, newDebtorBalance⟩ :: ds
    let restCreditors :=
      if |newCreditorBalance| < 1/100 then cs else ⟨c.name, newCreditorBalance⟩ :: cs
    match settleLoop fuel restDebtors restCreditors with
    | none => none
    | some rest =>
      some (if amountToPay > 1/100 then ⟨d.name, c.name, amountToPay⟩ :: rest
            else rest)

/-- `calculateSettlements` from `settlement.ts`.  The loop is run with fuel
`debtors.length + creditors.length`; `settleLoop_spec` below proves this
fuel is never exhausted, so the `Option.getD []` default is never taken. -/
def calculateSettlements (members : List String)
    (expenses : List TripExpenseInput) : List Settlement :=
  if members.length = 0 then []
  else
    (settleLoop
        ((debtors members expenses).length + (creditors members expenses).length)
        (debtors members expenses) (creditors members expenses)).getD []

/-- Sum of the `amount` fields of a settlement list. -/
def sumAmounts (l : List Settlement) : Rat :=
  (l.map Settlement.amount).sum

/-- Sum of the negated balances of a balance list (total debt). -/
def negSum (l : List MemberBalance) : Rat :=
  (l.map (fun b => -b.balance)).sum

/-- Sum of the balances of a balance list (total credit). -/
def posSum (l : List MemberBalance) : Rat :=
  (l.map (fun b => b.balance)).sum

/-- Sum of the positive parts of all member balances. -/
def posBalanceSum (members : List String) (expenses : List TripExpenseInput) :
    Rat :=
  ((balances members expenses).map (fun b => max b.balance 0)).sum

/-- Sum of the absolute values of all negative member balances. -/
def negBalanceSum (members : List String) (expenses : List TripExpenseInput) :
    Rat :=
  ((balances members expenses).map (fun b => max (-b.balance) 0)).sum

/-- The spec's description of the matched spend: the total of the amounts of
exactly those expenses whose `payerName` is a roster member. -/
def specMatchedSpend (members : List String)
    (expenses : List TripExpenseInput) : Rat :=
  ((expenses.filter (fun e => decide (e.payerName ∈ members))).map
      TripExpenseInput.amount).sum

/-! ## Local store (`src/lib/db/db.ts`)

The IndexedDB database `VerdantViewDB` is embedded as an explicit state
value.  Each object store with an `autoIncrement` key generator becomes a
`Col`: a list of records (each a key paired with the stored payload, the
payload being the source record with its `id` property stripped) plus the
key generator's next key.  ISO-8601 date strings compare lexicographically
exactly as the instants they denote, so they are kept as opaque `String`s
except in the reminder sweep, where day arithmetic matters and timestamps
are embedded as whole days (`Int`). -/

/-- A stored record: the store key plus the payload. -/
structure WithId (D : Type) where
  id : Nat
  data : D
deriving DecidableEq

/-- A record as it appears in an import payload: the `id` property is
optional (`id?: number` in `types.ts`). -/
structure PRec (D : Type) where
  id : Option Nat
  data : D
deriving DecidableEq

/-- One object store with an `autoIncrement` key generator.  IndexedDB key
generators start at 1 and increase by one per generated key. -/
structure Col (D : Type) where
  recs : List (WithId D)
  nextId : Nat
deriving DecidableEq

/-- `store.add(rest)` for a payload with the `id` stripped: the key
generator assigns the next key.  Returns the new collection and the
assigned key (the value of `addRequest.result`). -/
def Col.add {D : Type} (c : Col D) (d : D) : Col D × Nat :=
  (⟨c.recs ++ [⟨c.nextId, d⟩], c.nextId + 1⟩, c.nextId)

/-- A sequence of `store.add` calls in payload order. -/
def Col.addAll {D : Type} (c : Col D) (l : List D) : Col D :=
  l.foldl (fun c d => (c.add d).1) c

/-- The records created by `Col.addAll` from base key `n`. -/
def assignIds {D : Type} (n : Nat) : List D → List (WithId D)
  | [] => []
  | d :: ds => ⟨n, d⟩ :: assignIds (n + 1) ds

/-- `Expense` from `types.ts` without `id` (the `HEAD` side of the merge
conflict in the file, which includes `excludeFromBudget`).  The
`paymentMode` and `type` unions of string literals are kept as strings. -/
structure ExpenseData where
  title : String
  amount : Rat
  date : String
  category : String
  paymentMode : String
  type : Option String
  excludeFromBudget : Option Bool
deriving DecidableEq

/-- `Category` from `types.ts` without `id`. -/
structure CategoryData where
  name : String
deriving DecidableEq

/-- `Reminder` from `types.ts` without `id`, with timestamps embedded as
whole days (see the module conventions): `date` is the due day, and
`isRecurring?: boolean` is a `Bool` (an absent optional boolean and `false`
behave identically in every `if`). -/
structure Reminder where
  title : String
  date : Int
  isRecurring : Bool
  repeatInterval : Option Nat
  lastTriggered : Option Int
deriving DecidableEq

/-- `AppSettings` from `types.ts` without `id` (the stored record always
has `id = 1`). -/
structure SettingsData where
  monthlyBudget : Rat
  emergencyFundGoal : Option Rat
  emergencyFundCurrent : Option Rat
  userName : Option String
deriving DecidableEq

/-- `SavingsTransaction` from `types.ts` without `id`. -/
structure SavingsData where
  amount : Rat
  date : String
  type : String
  note : Option String
deriving DecidableEq

/-- `Trip` without `id`: name, members, creation timestamp, status. -/
structure TripData where
  name : String
  members : List String
  createdAt : String
  status : String
deriving DecidableEq

/-- `TripExpense` without `id`; `tripId` is the foreign key into the trips
store. -/
structure TripExpenseData where
  tripId : Nat
  payerName : String
  amount : Rat
  description : String
  date : String
deriving DecidableEq

/-- The whole `VerdantViewDB` state: the seven object stores.  `settings`
is keyed by a fixed id 1, hence a single optional record. -/
structure DB where
  expenses : Col ExpenseData
  categories : Col CategoryData
  reminders : Col Reminder
  settings : Option SettingsData
  savings : Col SavingsData
  trips : Col TripData
  tripExpenses : Col TripExpenseData
deriving DecidableEq

/-- Key generators are at least 1 and stay ahead of every stored key (true
of every store produced by IndexedDB's key generator). -/
def DB.WellFormed (db : DB) : Prop :=
  (∀ r ∈ db.trips.recs, r.id < db.trips.nextId) ∧
  (∀ r ∈ db.tripExpenses.recs, r.id < db.tripExpenses.nextId)

/-- `defaultCategories` from `db.ts`. -/
def defaultCategories : List String :=
  ["Groceries", "Dining", "Travel", "Utilities", "Shopping", "Food",
   "Medicine", "Other"]

/-- `deleteCategory` from `db.ts`: fetch the record by key; if it exists
and its name is a protected default, reject with the typed error before
issuing any delete; otherwise issue the delete (a no-op success when the
key is absent, as in IndexedDB).  The returned pair is the promise outcome
and the resulting category store contents. -/
def deleteCategory (cats : List (WithId CategoryData)) (idv : Nat) :
    Except String Unit × List (WithId CategoryData) :=
  match cats.find? (fun c => c.id == idv) with
  | some c =>
    if defaultCategories.contains c.data.name then
      (Except.error "Cannot delete a default category.", cats)
    else
      (Except.ok (), cats.filter (fun c => !(c.id == idv)))
  | none => (Except.ok (), cats.filter (fun c => !(c.id == idv)))

/-- Transaction modes of `performDBOperation`. -/
inductive TxMode where
  | readonly
  | readwrite
deriving DecidableEq

/-- `performDBOperation` from `db.ts`, over an abstract store state `σ`:
run the single request against the store; if it fails, the promise rejects,
the transaction aborts (rolling the state back) and `oncomplete` never
fires; if it succeeds, the promise resolves with the request result and on
commit the `transaction.oncomplete` handler dispatches one `dataChanged`
event exactly when the mode is `readwrite`.  The third component counts the
dispatched events. -/
def performDBOperation {σ β : Type} (mode : TxMode) (st : σ)
    (op : σ → Except String (σ × β)) : Except String β × σ × Nat :=
  match op st with
  | Except.error e => (Except.error e, st, 0)
  | Except.ok (st2, res) =>
    (Except.ok res, st2, if mode = TxMode.readwrite then 1 else 0)

/-! ### Reminder sweep (`clearOldReminders`)

The sweep opens a cursor over the `date` index restricted to keys strictly
below the start of the current day.  An updated recurring reminder is
re-inserted at its new, larger date key; per the IndexedDB specification a
cursor visits records relocated ahead of its position while still inside
the range, so one sweep invocation keeps advancing a recurring reminder
until its date is no longer before today.  Distinct reminders are
processed independently (an update or delete never moves any other
record), so the sweep is embedded per record; the day-ordered visiting
order only affects processing order, not the final contents. -/

/-- The successive cursor visits of one overdue recurring reminder: keep
adding `repeatInterval` days while the updated date is still strictly
before `today`.  Returns the final date and the date of the last visit
(the value stored into `lastTriggered`).  The `0 < i` conjunct only
bounds the recursion; every call site has already established it (a zero
or absent `repeatInterval` is falsy and takes the delete branch). -/
def advanceDates (today : Int) (i : Nat) (date : Int) : Int × Int :=
  if h : 0 < i ∧ date + i < today then
    advanceDates today i (date + i)
  else
    (date + i, date)
termination_by (today - date).toNat
decreasing_by
  omega

/-- What one sweep does with a single reminder: reminders dated today or
later are outside the cursor range and untouched; an overdue reminder with
truthy `isRecurring` and truthy (nonzero, present) `repeatInterval` is
advanced, with `lastTriggered` recording its previous due date; every
other overdue reminder is deleted. -/
def sweepReminder (today : Int) (r : Reminder) : Option Reminder :=
  if r.date < today then
    if r.isRecurring ∧ r.repeatInterval.getD 0 ≠ 0 then
      some { r with
        date := (advanceDates today (r.repeatInterval.getD 0) r.date).1,
        lastTriggered := some (advanceDates today (r.repeatInterval.getD 0) r.date).2 }
    else none
  else some r

/-- `clearOldReminders` from `db.ts`, applied to the reminder payloads of
the store (keys are irrelevant to the sweep and omitted). -/
def clearOldReminders (today : Int) (rs : List Reminder) : List Reminder :=
  rs.filterMap (sweepReminder today)

/-! ### Import and export (`importData`, `exportTrip`, `importTrip`) -/

/-- The argument shape of `importData`: every property is optional, and the
`trips` / `trip_expenses` properties are read through an untyped cast in
the source. -/
structure ImportPayload where
  expenses : Option (List (PRec ExpenseData))
  categories : Option (List (PRec CategoryData))
  reminders : Option (List (PRec Reminder))
  settings : Option SettingsData
  savingsTransactions : Option (List (PRec SavingsData))
  trips : Option (List (PRec TripData))
  trip_expenses : Option (List (PRec TripExpenseData))
deriving DecidableEq

/-- The categories phase of `importData`.  All `index.get(c.name)` lookups
are queued before any conditional `add`, so every lookup sees the
pre-import store (`pre`); an `add` of a name that is nevertheless already
present (a duplicate new name inside the payload itself) violates the
unique `name` index, and the unhandled request error aborts the whole
transaction (`none`). -/
def importCategoriesPhase (pre : List (WithId CategoryData))
    (col : Col CategoryData) : List (PRec CategoryData) →
    Option (Col CategoryData)
  | [] => some col
  | c :: cs =>
    if pre.any (fun r => r.data.name == c.data.name) then
      importCategoriesPhase pre col cs
    else if col.recs.any (fun r => r.data.name == c.data.name) then
      none
    else
      importCategoriesPhase pre (col.add ⟨c.data.name⟩).1 cs

/-- The trip-expenses inserted for one imported trip: the source guard
`if (expenseData && oldId)` requires the `trip_expenses` property to be
present and the old id to be truthy (present and nonzero); when it holds,
the payload trip-expenses whose `tripId` equals the trip's old id are
taken, with `id` stripped and `tripId` rewritten to the trip's new key. -/
def tripExpenseBatch (expenseData : Option (List (PRec TripExpenseData)))
    (oldId? : Option Nat) (newId : Nat) : List TripExpenseData :=
  match expenseData, oldId? with
  | some exps, some oldId =>
    if oldId ≠ 0 then
      (exps.filter (fun ex => ex.data.tripId == oldId)).map
        (fun ex => { ex.data with tripId := newId })
    else []
  | _, _ => []

/-- The trips phase of `importData`: each imported trip is added with its
`id` stripped; once its new key is known, its `tripExpenseBatch` is added
(when the batch is empty no trip-expense write occurs, and `addAll []` is
the identity). -/
def importTripsPhase :
    DB → List (PRec TripData) → Option (List (PRec TripExpenseData)) → DB
  | db, [], _ => db
  | db, t :: ts, expenseData =>
    let added := db.trips.add t.data
    let db1 := { db with trips := added.1 }
    let db2 := { db1 with tripExpenses :=
        db1.tripExpenses.addAll (tripExpenseBatch expenseData t.id added.2) }
    importTripsPhase db2 ts expenseData

/-- The expenses phase of `importData`: append every payload expense with
its `id` stripped.  (The source's string-to-number coercion of `amount` is
the identity in this typed embedding.) -/
def importExpensesPhase (db : DB) :
    Option (List (PRec ExpenseData)) → DB
  | none => db
  | some l => { db with expenses := db.expenses.addAll (l.map PRec.data) }

/-- The reminders phase of `importData`: append with ids stripped. -/
def importRemindersPhase (db : DB) : Option (List (PRec Reminder)) → DB
  | none => db
  | some l => { db with reminders := db.reminders.addAll (l.map PRec.data) }

/-- The settings phase of `importData`:
`store.put({ ...existing, ...data.settings, id: 1 })` — the payload type
carries every settings field, so the merge replaces the stored record. -/
def importSettingsPhase (db : DB) : Option SettingsData → DB
  | none => db
  | some s => { db with settings := some s }

/-- The savings-transactions phase of `importData`: append with ids
stripped. -/
def importSavingsPhase (db : DB) : Option (List (PRec SavingsData)) → DB
  | none => db
  | some l => { db with savings := db.savings.addAll (l.map PRec.data) }

/-- `importData` from `db.ts`.  All writes run in one transaction; a
constraint violation in the categories phase aborts it (`none`), rolling
back every write.  Existing records are never cleared: expenses, reminders
and savings transactions are appended with ids stripped; categories are
added (name only) when no category of that name pre-exists; the settings
record is merged-and-overwritten at key 1; trips and their expenses are
handled by `importTripsPhase`.  (The `forEach` at the top of the source's
categories block has an empty body and is not modelled.) -/
def importData (db : DB) (p : ImportPayload) : Option DB :=
  let db1 := importExpensesPhase db p.expenses
  match (match p.categories with
         | none => some db1.categories
         | some cats => importCategoriesPhase db1.categories.recs db1.categories cats) with
  | none => none
  | some catCol =>
    let db2 := { db1 with categories := catCol }
    let db3 := importRemindersPhase db2 p.reminders
    let db4 := importSettingsPhase db3 p.settings
    let db5 := importSavingsPhase db4 p.savingsTransactions
    some (match p.trips with
          | none => db5
          | some trips => importTripsPhase db5 trips p.trip_expenses)

/-- `getTrip` from `db.ts`: `store.get(id)`. -/
def getTrip (db : DB) (tid : Nat) : Option (WithId TripData) :=
  db.trips.recs.find? (fun r => r.id == tid)

/-- `getTripExpenses` from `db.ts`: `index("tripId").getAll(tripId)`.
Records come back in primary-key order, which is the order of `recs`. -/
def getTripExpenses (db : DB) (tid : Nat) : List (WithId TripExpenseData) :=
  db.tripExpenses.recs.filter (fun r => r.data.tripId == tid)

/-- The document produced by `exportTrip`. -/
structure TripExportBundle where
  trip : Option (WithId TripData)
  expenses : List (WithId TripExpenseData)
  version : String
  exportedAt : String
deriving DecidableEq

/-- `exportTrip` from `db.ts`; `now` is the `new Date().toISOString()`
value. -/
def exportTrip (db : DB) (tid : Nat) (now : String) : TripExportBundle :=
  ⟨getTrip db tid, getTripExpenses db tid, "1.0", now⟩

/-- The argument shape of `importTrip`. -/
structure TripImportPayload where
  trip : PRec TripData
  expenses : List (PRec TripExpenseData)
deriving DecidableEq

/-- `importTrip` from `db.ts`: the trip is added with its `id` discarded;
every expense is then added with its `id` discarded and `tripId` rewritten
to the newly assigned trip key. -/
def importTrip (db : DB) (d : TripImportPayload) : DB :=
  let added := db.trips.add d.trip.data
  let newExps := d.expenses.map (fun ex => { ex.data with tripId := added.2 })
  { db with
    trips := added.1,
    tripExpenses := db.tripExpenses.addAll newExps }

/-- The trip-expense payloads `importData` creates, in insertion order:
for the `idx`-th imported trip (new key `base + idx`), the payload
trip-expenses whose `tripId` equals its old id, rewritten. -/
def expectedTripExpenses (base : Nat) :
    List (PRec TripData) → Option (List (PRec TripExpenseData)) →
    List TripExpenseData
  | [], _ => []
  | t :: ts, expenseData =>
    tripExpenseBatch expenseData t.id base ++
      expectedTripExpenses (base + 1) ts expenseData

example :
    calculateSettlements ["Alice", "Bob", "Carol"]
      [⟨"Alice", 300⟩] =
      [⟨"Bob", "Alice", 100⟩, ⟨"Carol", "Alice", 100⟩] := by decide

example : calculateSettlements ["A", "A"] [⟨"A", 100⟩] = [] := by decide

example :
    calculateSettlements ["A", "B", "C"] [⟨"A", 27/1000⟩, ⟨"B", 27/1000⟩] = [] := by
  decide

example : posBalanceSum ["A", "B", "C"] [⟨"A", 27/1000⟩, ⟨"B", 27/1000⟩] = 18/1000 := by
  decide

/-! ## Supporting lemmas about the settlement engine -/

theorem negSum_nil : negSum [] = 0 := rfl

theorem posSum_nil : posSum [] = 0 := rfl

theorem sumAmounts_nil : sumAmounts [] = 0 := rfl

theorem negSum_cons (b : MemberBalance) (l : List MemberBalance) :
    negSum (b :: l) = -b.balance + negSum l := by
  simp [negSum]

theorem posSum_cons (b : MemberBalance) (l : List MemberBalance) :
    posSum (b :: l) = b.balance + posSum l := by
  simp [posSum]

theorem sumAmounts_cons (s : Settlement) (l : List Settlement) :
    sumAmounts (s :: l) = s.amount + sumAmounts l := by
  simp [sumAmounts]

theorem posSum_nonneg {c : List MemberBalance}
    (hc : ∀ y ∈ c, (1/100 : Rat) ≤ y.balance) : 0 ≤ posSum c := by
  induction c with
  | nil => simp [posSum_nil]
  | cons y ys ih =>
    have h1 := hc y (List.mem_cons_self y ys)
    have h2 : 0 ≤ posSum ys := ih fun z hz => hc z (List.mem_cons_of_mem _ hz)
    rw [posSum_cons]
    linarith

theorem negSum_nonneg {d : List MemberBalance}
    (hd : ∀ x ∈ d, x.balance ≤ -(1/100 : Rat)) : 0 ≤ negSum d := by
  induction d with
  | nil => simp [negSum_nil]
  | cons x xs ih =>
    have h1 := hd x (List.mem_cons_self x xs)
    have h2 : 0 ≤ negSum xs := ih fun z hz => hd z (List.mem_cons_of_mem _ hz)
    rw [negSum_cons]
    linarith

/-- Main specification of the greedy matching loop: with fuel
`debtors + creditors` it always returns `some` (each iteration drives at
least one current balance to exactly zero, so at least one index strictly
advances), and the recorded total lies between
`min (total debt) (total credit) - 0.02·(debtors + creditors)` and each of
the two totals. -/
theorem settleLoop_spec :
    ∀ (fuel : Nat) (d c : List MemberBalance),
      (∀ x ∈ d, x.balance ≤ -(1/100 : Rat)) →
      (∀ y ∈ c, (1/100 : Rat) ≤ y.balance) →
      d.length + c.length ≤ fuel →
      ∃ out, settleLoop fuel d c = some out ∧
        sumAmounts out ≤ negSum d ∧ sumAmounts out ≤ posSum c ∧
        min (negSum d) (posSum c) -
            (2/100) * ((d.length + c.length : Nat) : Rat) ≤ sumAmounts out := by
  intro fuel
  induction fuel with
  | zero =>
    intro d c hd hc hlen
    match d, c with
    | [], c =>
      refine ⟨[], by simp [settleLoop], by simp [sumAmounts_nil, negSum_nil], ?_, ?_⟩
      · simpa [sumAmounts_nil] using posSum_nonneg hc
      · have h1 : min (negSum ([] : List MemberBalance)) (posSum c) ≤ 0 := by
          simpa [negSum_nil] using min_le_left (0 : Rat) (posSum c)
        have h2 : (0:Rat) ≤ (2/100) * ((List.length ([] : List MemberBalance) + c.length : Nat) : Rat) := by
          positivity
        simp only [sumAmounts_nil]
        linarith
    | x :: xs, [] =>
      refine ⟨[], by simp [settleLoop], ?_, by simp [sumAmounts_nil, posSum_nil], ?_⟩
      · simpa [sumAmounts_nil] using negSum_nonneg hd
      · have h1 : min (negSum (x :: xs)) (posSum ([] : List MemberBalance)) ≤ 0 := by
          simpa [posSum_nil] using min_le_right (negSum (x :: xs)) (0 : Rat)
        have h2 : (0:Rat) ≤ (2/100) * (((x :: xs).length + List.length ([] : List MemberBalance) : Nat) : Rat) := by
          positivity
        simp only [sumAmounts_nil]
        linarith
    | x :: xs, y :: ys => simp at hlen
  | succ fuel ih =>
    intro d c hd hc hlen
    match d, c with
    | [], c =>
      refine ⟨[], by simp [settleLoop], by simp [sumAmounts_nil, negSum_nil], ?_, ?_⟩
      · simpa [sumAmounts_nil] using posSum_nonneg hc
      · have h1 : min (negSum ([] : List MemberBalance)) (posSum c) ≤ 0 := by
          simpa [negSum_nil] using min_le_left (0 : Rat) (posSum c)
        have h2 : (0:Rat) ≤ (2/100) * ((List.length ([] : List MemberBalance) + c.length : Nat) : Rat) := by
          positivity
        simp only [sumAmounts_nil]
        linarith
    | x :: xs, [] =>
      refine ⟨[], by simp [settleLoop], ?_, by simp [sumAmounts_nil, posSum_nil], ?_⟩
      · simpa [sumAmounts_nil] using negSum_nonneg hd
      · have h1 : min (negSum (x :: xs)) (posSum ([] : List MemberBalance)) ≤ 0 := by
          simpa [posSum_nil] using min_le_right (negSum (x :: xs)) (0 : Rat)
        have h2 : (0:Rat) ≤ (2/100) * (((x :: xs).length + List.length ([] : List MemberBalance) : Nat) : Rat) := by
          positivity
        simp only [sumAmounts_nil]
        linarith
    | d0 :: ds, c0 :: cs =>
      have hd0 : d0.balance ≤ -(1/100 : Rat) := hd d0 (List.mem_cons_self _ _)
      have hc0 : (1/100 : Rat) ≤ c0.balance := hc c0 (List.mem_cons_self _ _)
      have habs : |d0.balance| = -d0.balance := abs_of_neg (by linarith)
      set amt : Rat := min |d0.balance| c0.balance with hamt_def
      have hamt1 : (1/100 : Rat) ≤ amt := by
        rw [hamt_def, habs]
        exact le_min (by linarith) hc0
      have hamtd : amt ≤ -d0.balance := by
        rw [hamt_def, habs]; exact min_le_left _ _
      have hamtc : amt ≤ c0.balance := min_le_right _ _
      have hdrop : amt = -d0.balance ∨ amt = c0.balance := by
        rcases min_choice |d0.balance| c0.balance with h | h
        · left; rw [hamt_def, h, habs]
        · right; rw [hamt_def, h]
      set newD : List MemberBalance :=
        if |d0.balance + amt| < 1/100 then ds
        else ⟨d0.name, d0.balance + amt⟩ :: ds with hnewD_def
      set newC : List MemberBalance :=
        if |c0.balance - amt| < 1/100 then cs
        else ⟨c0.name, c0.balance - amt⟩ :: cs with hnewC_def
      have hunfold : settleLoop (fuel + 1) (d0 :: ds) (c0 :: cs) =
          (match settleLoop fuel newD newC with
           | none => none
           | some rest =>
             some (if amt > 1/100 then ⟨d0.name, c0.name, amt⟩ :: rest else rest)) := rfl
      -- Properties of the new debtor list.
      have hinvD : ∀ x ∈ newD, x.balance ≤ -(1/100 : Rat) := by
        rw [hnewD_def]
        split
        · exact fun x hx => hd x (List.mem_cons_of_mem _ hx)
        · next hkeep =>
          intro x hx
          rcases List.mem_cons.1 hx with rfl | hx
          · have h1 : (1/100 : Rat) ≤ |d0.balance + amt| := le_of_not_lt hkeep
            have h2 : d0.balance + amt ≤ 0 := by linarith
            have h3 : |d0.balance + amt| = -(d0.balance + amt) := abs_of_nonpos h2
            simpa using by linarith [h3 ▸ h1]
          · exact hd x (List.mem_cons_of_mem _ hx)
      have hinvC : ∀ y ∈ newC, (1/100 : Rat) ≤ y.balance := by
        rw [hnewC_def]
        split
        · exact fun y hy => hc y (List.mem_cons_of_mem _ hy)
        · next hkeep =>
          intro y hy
          rcases List.mem_cons.1 hy with rfl | hy
          · have h1 : (1/100 : Rat) ≤ |c0.balance - amt| := le_of_not_lt hkeep
            have h2 : 0 ≤ c0.balance - amt := by linarith
            have h3 : |c0.balance - amt| = c0.balance - amt := abs_of_nonneg h2
            simpa using by linarith [h3 ▸ h1]
          · exact hc y (List.mem_cons_of_mem _ hy)
      have hDub : negSum newD ≤ negSum (d0 :: ds) - amt := by
        rw [hnewD_def]
        split
        · next hdropD =>
          rw [negSum_cons]
          have : -(1/100 : Rat) < d0.balance + amt := (abs_lt.1 hdropD).1
          linarith
        · rw [negSum_cons, negSum_cons]
          simp only
          linarith
      have hDlb : negSum (d0 :: ds) - amt - 1/100 ≤ negSum newD := by
        rw [hnewD_def]
        split
        · next hdropD =>
          rw [negSum_cons]
          have : -(1/100 : Rat) < d0.balance + amt := (abs_lt.1 hdropD).1
          linarith
        · rw [negSum_cons, negSum_cons]
          simp only
          linarith
      have hCub : posSum newC ≤ posSum (c0 :: cs) - amt := by
        rw [hnewC_def]
        split
        · next hdropC =>
          rw [posSum_cons]
          have : c0.balance - amt < 1/100 := (abs_lt.1 hdropC).2
          linarith
        · rw [posSum_cons, posSum_cons]
          simp only
          linarith
      have hClb : posSum (c0 :: cs) - amt - 1/100 ≤ posSum newC := by
        rw [hnewC_def]
        split
        · next hdropC =>
          rw [posSum_cons]
          have : c0.balance - amt < 1/100 := (abs_lt.1 hdropC).2
          linarith
        · rw [posSum_cons, posSum_cons]
          simp only
          linarith
      have hlen' : newD.length + newC.length ≤ fuel := by
        have hone : newD.length ≤ ds.length ∨ newC.length ≤ cs.length := by
          rcases hdrop with h | h
          · left
            have : |d0.balance + amt| < 1/100 := by
              rw [h]
              simpa using by norm_num
            rw [hnewD_def, if_pos this]
          · right
            have : |c0.balance - amt| < 1/100 := by
              rw [h]
              simpa using by norm_num
            rw [hnewC_def, if_pos this]
        have hDle : newD.length ≤ ds.length + 1 := by
          rw [hnewD_def]; split <;> simp <;> omega
        have hCle : newC.length ≤ cs.length + 1 := by
          rw [hnewC_def]; split <;> simp <;> omega
        simp only [List.length_cons] at hlen
        omega
      obtain ⟨rest, hrest, hub1, hub2, hlb⟩ := ih newD newC hinvD hinvC hlen'
      refine ⟨if amt > 1/100 then ⟨d0.name, c0.name, amt⟩ :: rest else rest, ?_, ?_, ?_, ?_⟩
      · rw [hunfold, hrest]
      · split
        · rw [sumAmounts_cons]
          simp only
          linarith
        · linarith
      · split
        · rw [sumAmounts_cons]
          simp only
          linarith
        · linarith
      · -- lower bound
        have hminstep : min (negSum (d0 :: ds)) (posSum (c0 :: cs)) - amt - 1/100 ≤
            min (negSum newD) (posSum newC) := by
          rcases le_total (negSum newD) (posSum newC) with h | h
          · rw [min_eq_left h]
            have := min_le_left (negSum (d0 :: ds)) (posSum (c0 :: cs))
            linarith
          · rw [min_eq_right h]
            have := min_le_right (negSum (d0 :: ds)) (posSum (c0 :: cs))
            linarith
        have hlenR : ((newD.length + newC.length : Nat) : Rat) ≤
            (((d0 :: ds).length + (c0 :: cs).length : Nat) : Rat) - 1 := by
          have hone : newD.length + newC.length + 1 ≤ (d0 :: ds).length + (c0 :: cs).length := by
            have hDle : newD.length ≤ ds.length + 1 := by
              rw [hnewD_def]; split <;> simp <;> omega
            have hCle : newC.length ≤ cs.length + 1 := by
              rw [hnewC_def]; split <;> simp <;> omega
            have hone : newD.length ≤ ds.length ∨ newC.length ≤ cs.length := by
              rcases hdrop with h | h
              · left
                have : |d0.balance + amt| < 1/100 := by
                  rw [h]
                  simpa using by norm_num
                rw [hnewD_def, if_pos this]
              · right
                have : |c0.balance - amt| < 1/100 := by
                  rw [h]
                  simpa using by norm_num
                rw [hnewC_def, if_pos this]
            simp only [List.length_cons]
            omega
          have := (Nat.cast_le (α := Rat)).2 hone
          push_cast at this ⊢
          linarith
        have hmul : (2/100 : Rat) * ((newD.length + newC.length : Nat) : Rat) ≤
            (2/100) * ((((d0 :: ds).length + (c0 :: cs).length : Nat) : Rat) - 1) := by
          have h2 : (0:Rat) ≤ 2/100 := by norm_num
          exact mul_le_mul_of_nonneg_left hlenR h2
        split
        · rw [sumAmounts_cons]
          simp only
          linarith
        · next hskip =>
          have hamt_eq : amt = 1/100 := le_antisymm (le_of_not_lt hskip) hamt1
          linarith

theorem mem_debtors {ms : List String} {es : List TripExpenseInput}
    {b : MemberBalance} (hb : b ∈ debtors ms es) :
    b ∈ balances ms es ∧ b.balance < -(1/100 : Rat) := by
  have h1 : b ∈ (balances ms es).filter (fun b => b.balance < -(1/100)) :=
    (List.perm_insertionSort _ _).mem_iff.1 hb
  have h2 := List.mem_filter.1 h1
  exact ⟨h2.1, by simpa using h2.2⟩

theorem mem_creditors {ms : List String} {es : List TripExpenseInput}
    {b : MemberBalance} (hb : b ∈ creditors ms es) :
    b ∈ balances ms es ∧ (1/100 : Rat) < b.balance := by
  have h1 : b ∈ (balances ms es).filter (fun b => b.balance > 1/100) :=
    (List.perm_insertionSort _ _).mem_iff.1 hb
  have h2 := List.mem_filter.1 h1
  exact ⟨h2.1, by simpa using h2.2⟩

theorem debtors_invariant (ms : List String) (es : List TripExpenseInput) :
    ∀ x ∈ debtors ms es, x.balance ≤ -(1/100 : Rat) :=
  fun x hx => le_of_lt (mem_debtors hx).2

theorem creditors_invariant (ms : List String) (es : List TripExpenseInput) :
    ∀ y ∈ creditors ms es, (1/100 : Rat) ≤ y.balance :=
  fun y hy => le_of_lt (mem_creditors hy).2

/-- C10: `calculateSettlements` is total — the greedy matching loop
terminates for every input.  Each iteration's transfer amount is the
minimum of the current debtor's absolute balance and the current creditor's
balance, which drives at least one of the two balances to exactly zero, so
at least one of the two list indices strictly advances per iteration and
the loop runs at most `debtors + creditors` iterations: running the
fuelled embedding of the loop with exactly `debtors.length +
creditors.length` units of fuel always yields a result. -/
theorem settleLoop_terminates (ms : List String) (es : List TripExpenseInput) :
    (settleLoop ((debtors ms es).length + (creditors ms es).length)
        (debtors ms es) (creditors ms es)).isSome = true := by
  obtain ⟨out, hout, -, -, -⟩ :=
    settleLoop_spec ((debtors ms es).length + (creditors ms es).length)
      (debtors ms es) (creditors ms es)
      (debtors_invariant ms es) (creditors_invariant ms es) le_rfl
  rw [hout]
  rfl

theorem memberTotals_empty_expenses (ms : List String) (m : String) :
    memberTotals ms [] m = 0 := rfl

theorem average_empty_expenses (ms : List String) : average ms [] = 0 := by
  have h : totalTripExpense ms [] = 0 := by
    apply List.sum_eq_zero
    intro x hx
    obtain ⟨n, -, rfl⟩ := List.mem_map.1 hx
    rfl
  rw [average, h, zero_div]

theorem balances_empty_expenses (ms : List String) {b : MemberBalance}
    (hb : b ∈ balances ms []) : b.balance = 0 := by
  simp only [balances, List.mem_map] at hb
  obtain ⟨n, -, rfl⟩ := hb
  simp [memberTotals_empty_expenses, average_empty_expenses]

/-- C8: `calculateSettlements` returns the empty list whenever the roster
is empty, whenever the roster has exactly one member (regardless of the
expense list), and whenever the expense list is empty (regardless of the
roster). -/
theorem calculateSettlements_degenerate_empty :
    (∀ es, calculateSettlements [] es = []) ∧
    (∀ m es, calculateSettlements [m] es = []) ∧
    (∀ ms, calculateSettlements ms [] = []) := by
  refine ⟨fun es => by simp [calculateSettlements], ?_, ?_⟩
  · intro m es
    have hbal : ∀ b ∈ balances [m] es, b.balance = 0 := by
      intro b hb
      simp only [balances, List.mem_map, List.mem_singleton] at hb
      obtain ⟨n, rfl, rfl⟩ := hb
      show memberTotals [n] es n - average [n] es = 0
      have h : average [n] es = memberTotals [n] es n := by
        simp [average, totalTripExpense]
      rw [h, sub_self]
    have hdeb : debtors [m] es = [] := by
      have : (balances [m] es).filter (fun b => b.balance < -(1/100)) = [] := by
        rw [List.filter_eq_nil_iff]
        intro b hb
        rw [hbal b hb]
        norm_num
      simp only [debtors]
      rw [this]
      rfl
    have hcred : creditors [m] es = [] := by
      have : (balances [m] es).filter (fun b => b.balance > 1/100) = [] := by
        rw [List.filter_eq_nil_iff]
        intro b hb
        rw [hbal b hb]
        norm_num
      simp only [creditors]
      rw [this]
      rfl
    simp [calculateSettlements, hdeb, hcred, settleLoop]
  · intro ms
    have hdeb : debtors ms [] = [] := by
      have : (balances ms []).filter (fun b => b.balance < -(1/100)) = [] := by
        rw [List.filter_eq_nil_iff]
        intro b hb
        rw [balances_empty_expenses ms hb]
        norm_num
      simp only [debtors]
      rw [this]
      rfl
    have hcred : creditors ms [] = [] := by
      have : (balances ms []).filter (fun b => b.balance > 1/100) = [] := by
        rw [List.filter_eq_nil_iff]
        intro b hb
        rw [balances_empty_expenses ms hb]
        norm_num
      simp only [creditors]
      rw [this]
      rfl
    by_cases hms : ms.length = 0
    · simp [calculateSettlements, hms]
    · simp [calculateSettlements, hms, hdeb, hcred, settleLoop]

/-- Every transfer recorded by the loop takes its `from` name from the
debtor list and its `to` name from the creditor list. -/
theorem settleLoop_names :
    ∀ (fuel : Nat) (d c : List MemberBalance) (out : List Settlement),
      settleLoop fuel d c = some out →
      ∀ s ∈ out, s.from ∈ d.map MemberBalance.name ∧
        s.to ∈ c.map MemberBalance.name := by
  intro fuel
  induction fuel with
  | zero =>
    intro d c out hout s hs
    match d, c with
    | [], c => simp [settleLoop] at hout; subst hout; simp at hs
    | x :: xs, [] => simp [settleLoop] at hout; subst hout; simp at hs
    | x :: xs, y :: ys => simp [settleLoop] at hout
  | succ fuel ih =>
    intro d c out hout s hs
    match d, c with
    | [], c => simp [settleLoop] at hout; subst hout; simp at hs
    | x :: xs, [] => simp [settleLoop] at hout; subst hout; simp at hs
    | d0 :: ds, c0 :: cs =>
      set amt : Rat := min |d0.balance| c0.balance with hamt_def
      set newD : List MemberBalance :=
        if |d0.balance + amt| < 1/100 then ds
        else ⟨d0.name, d0.balance + amt⟩ :: ds with hnewD_def
      set newC : List MemberBalance :=
        if |c0.balance - amt| < 1/100 then cs
        else ⟨c0.name, c0.balance - amt⟩ :: cs with hnewC_def
      have hunfold : settleLoop (fuel + 1) (d0 :: ds) (c0 :: cs) =
          (match settleLoop fuel newD newC with
           | none => none
           | some rest =>
             some (if amt > 1/100 then ⟨d0.name, c0.name, amt⟩ :: rest else rest)) := rfl
      rw [hunfold] at hout
      match hrec : settleLoop fuel newD newC with
      | none => rw [hrec] at hout; simp at hout
      | some rest =>
        rw [hrec] at hout
        simp only [Option.some.injEq] at hout
        subst hout
        have hnewDsub : ∀ n, n ∈ newD.map MemberBalance.name →
            n ∈ (d0 :: ds).map MemberBalance.name := by
          intro n hn
          rw [hnewD_def] at hn
          rcases (by exact hn : n ∈ (if |d0.balance + amt| < 1/100 then ds
              else ⟨d0.name, d0.balance + amt⟩ :: ds).map MemberBalance.name) with hn
          · split at hn
            · simp only [List.map_cons, List.mem_cons]
              right
              exact hn
            · simp only [List.map_cons, List.mem_cons] at hn ⊢
              exact hn
        have hnewCsub : ∀ n, n ∈ newC.map MemberBalance.name →
            n ∈ (c0 :: cs).map MemberBalance.name := by
          intro n hn
          rw [hnewC_def] at hn
          rcases (by exact hn : n ∈ (if |c0.balance - amt| < 1/100 then cs
              else ⟨c0.name, c0.balance - amt⟩ :: cs).map MemberBalance.name) with hn
          · split at hn
            · simp only [List.map_cons, List.mem_cons]
              right
              exact hn
            · simp only [List.map_cons, List.mem_cons] at hn ⊢
              exact hn
        by_cases hrecd : amt > 1/100
        · rw [if_pos hrecd] at hs
          rcases List.mem_cons.1 hs with rfl | hs
          · constructor <;> simp
          · obtain ⟨h1, h2⟩ := ih newD newC rest hrec s hs
            exact ⟨hnewDsub _ h1, hnewCsub _ h2⟩
        · rw [if_neg hrecd] at hs
          obtain ⟨h1, h2⟩ := ih newD newC rest hrec s hs
          exact ⟨hnewDsub _ h1, hnewCsub _ h2⟩

/-- The balance of an entry of `balances` is determined by its name. -/
theorem balance_of_mem_balances {ms : List String} {es : List TripExpenseInput}
    {b : MemberBalance} (hb : b ∈ balances ms es) :
    b.balance = memberTotals ms es b.name - average ms es := by
  simp only [balances, List.mem_map] at hb
  obtain ⟨n, -, rfl⟩ := hb
  rfl

/-- C7: for every roster and expense list, no transfer in the output of
`calculateSettlements` has its `from` field equal to its `to` field: a
transfer's `from` is the name of a debtor (balance below `-0.01`), its `to`
the name of a creditor (balance above `0.01`), and an entry's balance is a
function of its name alone, so no name can be on both sides. -/
theorem calculateSettlements_from_ne_to (ms : List String)
    (es : List TripExpenseInput) (s : Settlement)
    (hs : s ∈ calculateSettlements ms es) : s.from ≠ s.to := by
  by_cases hms : ms.length = 0
  · rw [calculateSettlements, if_pos hms] at hs
    simp at hs
  · rw [calculateSettlements, if_neg hms] at hs
    obtain ⟨out, hout, -, -, -⟩ :=
      settleLoop_spec ((debtors ms es).length + (creditors ms es).length)
        (debtors ms es) (creditors ms es)
        (debtors_invariant ms es) (creditors_invariant ms es) le_rfl
    rw [hout] at hs
    simp only [Option.getD_some] at hs
    obtain ⟨hfrom, hto⟩ :=
      settleLoop_names _ (debtors ms es) (creditors ms es) out hout s hs
    obtain ⟨bd, hbd, hbdname⟩ := List.mem_map.1 hfrom
    obtain ⟨bc, hbc, hbcname⟩ := List.mem_map.1 hto
    intro heq
    obtain ⟨hbd_bal, hbd_lt⟩ := mem_debtors hbd
    obtain ⟨hbc_bal, hbc_gt⟩ := mem_creditors hbc
    have h1 := balance_of_mem_balances hbd_bal
    have h2 := balance_of_mem_balances hbc_bal
    have hname : bd.name = bc.name := by rw [hbdname, hbcname, heq]
    rw [h1, hname] at hbd_lt
    rw [h2] at hbc_gt
    linarith

/-- Witness for C7 at a concrete input with a non-trivial settlement. -/
theorem calculateSettlements_from_ne_to_witness :
    (Settlement.mk "Bob" "Alice" 5).from ≠ (Settlement.mk "Bob" "Alice" 5).to :=
  calculateSettlements_from_ne_to ["Alice", "Bob"] [⟨"Alice", 10⟩]
    (Settlement.mk "Bob" "Alice" 5) (by decide)

/-- Accumulator form of the `memberTotals` fold for a roster member. -/
theorem memberTotals_foldl_mem (ms : List String) (m : String) (hm : m ∈ ms) :
    ∀ (es : List TripExpenseInput) (tot : String → Rat),
      (es.foldl
        (fun tot e =>
          if e.payerName ∈ ms then
            recordUpdate tot e.payerName (tot e.payerName + e.amount)
          else tot) tot) m =
      tot m + ((es.filter (fun e => e.payerName = m)).map
        TripExpenseInput.amount).sum := by
  intro es
  induction es with
  | nil => intro tot; simp
  | cons e es ih =>
    intro tot
    rw [List.foldl_cons]
    by_cases hp : e.payerName ∈ ms
    · rw [if_pos hp, ih]
      by_cases hem : e.payerName = m
      · have hupd : recordUpdate tot e.payerName (tot e.payerName + e.amount) m =
            tot m + e.amount := by
          rw [recordUpdate, if_pos hem.symm, hem]
        rw [hupd]
        have hfil : (e :: es).filter (fun e => e.payerName = m) =
            e :: es.filter (fun e => e.payerName = m) := by
          simp [List.filter_cons, hem]
        rw [hfil]
        simp only [List.map_cons, List.sum_cons]
        ring
      · have hupd : recordUpdate tot e.payerName (tot e.payerName + e.amount) m =
            tot m := by
          rw [recordUpdate, if_neg (fun h => hem h.symm)]
        rw [hupd]
        have hfil : (e :: es).filter (fun e => e.payerName = m) =
            es.filter (fun e => e.payerName = m) := by
          simp [List.filter_cons, hem]
        rw [hfil]
    · rw [if_neg hp, ih]
      have hem : ¬ e.payerName = m := fun h => hp (h ▸ hm)
      have hfil : (e :: es).filter (fun e => e.payerName = m) =
          es.filter (fun e => e.payerName = m) := by
        simp [List.filter_cons, hem]
      rw [hfil]

/-- A roster member's matched paid total. -/
theorem memberTotals_eq_sum_filter {ms : List String} {m : String}
    (hm : m ∈ ms) (es : List TripExpenseInput) :
    memberTotals ms es m =
      ((es.filter (fun e => e.payerName = m)).map TripExpenseInput.amount).sum := by
  rw [memberTotals, memberTotals_foldl_mem ms m hm es (fun _ => 0)]
  simp

theorem sum_name_ite (L : List String) (hL : L.Nodup) (p : String) (a : Rat) :
    (L.map (fun n => if p = n then a else 0)).sum = if p ∈ L then a else 0 := by
  induction L with
  | nil => simp
  | cons n0 L ih =>
    obtain ⟨hn0, hnd⟩ := List.nodup_cons.1 hL
    rw [List.map_cons, List.sum_cons, ih hnd]
    by_cases h : p = n0
    · subst h
      rw [if_pos rfl, if_neg hn0, if_pos (List.mem_cons_self _ _)]
      ring
    · rw [if_neg h]
      by_cases hmem : p ∈ L
      · rw [if_pos hmem, if_pos (List.mem_cons_of_mem _ hmem)]
        ring
      · rw [if_neg hmem, if_neg (by simp [h, hmem])]
        ring

theorem sum_over_nodup_names (L : List String) (hL : L.Nodup) :
    ∀ es : List TripExpenseInput,
      (L.map (fun n => ((es.filter (fun e => e.payerName = n)).map
          TripExpenseInput.amount).sum)).sum =
      ((es.filter (fun e => decide (e.payerName ∈ L))).map
          TripExpenseInput.amount).sum := by
  intro es
  induction es with
  | nil => simp
  | cons e es ih =>
    have hpt : ∀ n,
        (((e :: es).filter (fun x => x.payerName = n)).map
            TripExpenseInput.amount).sum =
        (if e.payerName = n then e.amount else 0) +
          ((es.filter (fun x => x.payerName = n)).map
            TripExpenseInput.amount).sum := by
      intro n
      by_cases h : e.payerName = n
      · simp [List.filter_cons, h]
      · simp [List.filter_cons, h]
    rw [List.map_congr_left (fun n _ => hpt n), List.sum_map_add,
      sum_name_ite L hL e.payerName e.amount, ih]
    by_cases hp : e.payerName ∈ L
    · rw [if_pos hp]
      have hfil : ((e :: es).filter (fun x => decide (x.payerName ∈ L))) =
          e :: es.filter (fun x => decide (x.payerName ∈ L)) := by
        simp [List.filter_cons, hp]
      rw [hfil]
      simp only [List.map_cons, List.sum_cons]
    · rw [if_neg hp]
      have hfil : ((e :: es).filter (fun x => decide (x.payerName ∈ L))) =
          es.filter (fun x => decide (x.payerName ∈ L)) := by
        simp [List.filter_cons, hp]
      rw [hfil]
      ring

/-- The sum over the record's keys equals the matched spend. -/
theorem totalTripExpense_eq_matched (ms : List String)
    (es : List TripExpenseInput) :
    totalTripExpense ms es = specMatchedSpend ms es := by
  rw [totalTripExpense]
  have h1 : ∀ n ∈ ms.dedup, memberTotals ms es n =
      ((es.filter (fun e => e.payerName = n)).map TripExpenseInput.amount).sum :=
    fun n hn => memberTotals_eq_sum_filter (List.mem_dedup.1 hn) es
  rw [List.map_congr_left h1, sum_over_nodup_names ms.dedup (List.nodup_dedup ms)]
  rw [specMatchedSpend]
  congr 1
  apply congrArg
  apply List.filter_congr
  intro e he
  simp [List.mem_dedup]

/-- C6: in `calculateSettlements`, each roster member's paid total is the
sum of the amounts of exactly those expenses whose `payerName` equals that
member (expenses whose `payerName` matches no roster entry contribute to no
one's total), and the even share equals the total of all matched spend
divided by the roster length counted with duplicates. -/
theorem memberTotals_average_spec (ms : List String)
    (es : List TripExpenseInput) :
    (∀ m ∈ ms, memberTotals ms es m =
        ((es.filter (fun e => e.payerName = m)).map TripExpenseInput.amount).sum) ∧
    average ms es = specMatchedSpend ms es / (ms.length : Rat) := by
  constructor
  · exact fun m hm => memberTotals_eq_sum_filter hm es
  · rw [average, totalTripExpense_eq_matched]

/-- Witness for C6 at a concrete roster and expense list (note the payer
`"C"` outside the roster, whose spend is excluded). -/
theorem memberTotals_average_spec_witness :
    (∀ m ∈ ["A", "B"], memberTotals ["A", "B"]
        [⟨"A", 3⟩, ⟨"C", 4⟩, ⟨"A", 1⟩] m =
        (([⟨"A", 3⟩, ⟨"C", 4⟩, ⟨"A", 1⟩].filter
            (fun e => e.payerName = m)).map TripExpenseInput.amount).sum) ∧
    average ["A", "B"] [⟨"A", 3⟩, ⟨"C", 4⟩, ⟨"A", 1⟩] =
      specMatchedSpend ["A", "B"] [⟨"A", 3⟩, ⟨"C", 4⟩, ⟨"A", 1⟩] / ((2 : Nat) : Rat) :=
  memberTotals_average_spec ["A", "B"] [⟨"A", 3⟩, ⟨"C", 4⟩, ⟨"A", 1⟩]

theorem posSum_filter_le_posPart (bs : List MemberBalance) :
    posSum (bs.filter (fun b => b.balance > 1/100)) ≤
      (bs.map (fun b => max b.balance 0)).sum := by
  induction bs with
  | nil => simp [posSum]
  | cons b bs ih =>
    rw [List.map_cons, List.sum_cons]
    by_cases h : b.balance > 1/100
    · rw [List.filter_cons_of_pos (by simpa using h), posSum_cons]
      have : b.balance ≤ max b.balance 0 := le_max_left _ _
      linarith
    · rw [List.filter_cons_of_neg (by simpa using h)]
      have : (0:Rat) ≤ max b.balance 0 := le_max_right _ _
      linarith

theorem negSum_filter_le_negPart (bs : List MemberBalance) :
    negSum (bs.filter (fun b => b.balance < -(1/100))) ≤
      (bs.map (fun b => max (-b.balance) 0)).sum := by
  induction bs with
  | nil => simp [negSum]
  | cons b bs ih =>
    rw [List.map_cons, List.sum_cons]
    by_cases h : b.balance < -(1/100)
    · rw [List.filter_cons_of_pos (by simpa using h), negSum_cons]
      have : -b.balance ≤ max (-b.balance) 0 := le_max_left _ _
      linarith
    · rw [List.filter_cons_of_neg (by simpa using h)]
      have : (0:Rat) ≤ max (-b.balance) 0 := le_max_right _ _
      linarith

theorem posPart_le_creditor_sum (bs : List MemberBalance) :
    (bs.map (fun b => max b.balance 0)).sum ≤
      posSum (bs.filter (fun b => b.balance > 1/100)) +
        (1/100) * ((bs.filter
          (fun b => -(1/100) ≤ b.balance ∧ b.balance ≤ 1/100)).length : Rat) := by
  induction bs with
  | nil => simp [posSum]
  | cons b bs ih =>
    rw [List.map_cons, List.sum_cons]
    by_cases h : b.balance > 1/100
    · rw [List.filter_cons_of_pos (by simpa using h),
        List.filter_cons_of_neg (by simp; intro h1; linarith), posSum_cons]
      have : max b.balance 0 = b.balance := max_eq_left (by linarith)
      rw [this]
      linarith
    · rw [List.filter_cons_of_neg (by simpa using h)]
      by_cases h2 : -(1/100) ≤ b.balance
      · rw [List.filter_cons_of_pos (by simp; exact ⟨h2, by linarith⟩)]
        have hmax : max b.balance 0 ≤ 1/100 :=
          max_le (by linarith) (by norm_num)
        rw [List.length_cons]
        push_cast
        linarith
      · have hb : b.balance < -(1/100) := lt_of_not_le h2
        rw [List.filter_cons_of_neg (by simp; intro h3; linarith)]
        have hmax : max b.balance 0 = 0 := max_eq_right (by linarith)
        rw [hmax]
        linarith

theorem negPart_le_debtor_sum (bs : List MemberBalance) :
    (bs.map (fun b => max (-b.balance) 0)).sum ≤
      negSum (bs.filter (fun b => b.balance < -(1/100))) +
        (1/100) * ((bs.filter
          (fun b => -(1/100) ≤ b.balance ∧ b.balance ≤ 1/100)).length : Rat) := by
  induction bs with
  | nil => simp [negSum]
  | cons b bs ih =>
    rw [List.map_cons, List.sum_cons]
    by_cases h : b.balance < -(1/100)
    · rw [List.filter_cons_of_pos (by simpa using h),
        List.filter_cons_of_neg (by simp; intro h1; linarith), negSum_cons]
      have : max (-b.balance) 0 = -b.balance := max_eq_left (by linarith)
      rw [this]
      linarith
    · rw [List.filter_cons_of_neg (by simpa using h)]
      have hb : -(1/100) ≤ b.balance := le_of_not_lt h
      by_cases h2 : b.balance ≤ 1/100
      · rw [List.filter_cons_of_pos (by simp; exact ⟨hb, h2⟩)]
        have hmax : max (-b.balance) 0 ≤ 1/100 :=
          max_le (by linarith) (by norm_num)
        rw [List.length_cons]
        push_cast
        linarith
      · rw [List.filter_cons_of_neg (by simp; intro h3; linarith)]
        have hmax : max (-b.balance) 0 = 0 := max_eq_right (by linarith)
        rw [hmax]
        linarith

/-- Every member balance is classified as creditor, debtor, or settled
within tolerance: the three filters partition the balance list. -/
theorem balance_partition (bs : List MemberBalance) :
    (bs.filter (fun b => b.balance > 1/100)).length +
      (bs.filter (fun b => b.balance < -(1/100))).length +
      (bs.filter (fun b => -(1/100) ≤ b.balance ∧ b.balance ≤ 1/100)).length =
      bs.length := by
  induction bs with
  | nil => simp
  | cons b bs ih =>
    by_cases h1 : b.balance > 1/100
    · rw [List.filter_cons_of_pos (by simpa using h1),
        List.filter_cons_of_neg (by simp; linarith),
        List.filter_cons_of_neg (by simp; intro h2; linarith)]
      simp only [List.length_cons]
      omega
    · by_cases h2 : b.balance < -(1/100)
      · rw [List.filter_cons_of_neg (by simpa using h1),
          List.filter_cons_of_pos (by simpa using h2),
          List.filter_cons_of_neg (by simp; intro h3; linarith)]
        simp only [List.length_cons]
        omega
      · rw [List.filter_cons_of_neg (by simpa using h1),
          List.filter_cons_of_neg (by simpa using h2),
          List.filter_cons_of_pos (by simp; exact ⟨le_of_not_lt h2, le_of_not_lt h1⟩)]
        simp only [List.length_cons]
        omega

/-- C1 counterexample: for the three-member roster `A, B, C` with `A` and
`B` each having paid `0.027`, every balance (`0.009`, `0.009`, `-0.018`)
is within the `0.01` classification tolerance on the positive side, so no
creditor exists and no transfer is produced, while the sum of the positive
balances is `0.018`: the sum of transfer amounts does not equal the sum of
positive balances within tolerance `0.01`. -/
theorem calculateSettlements_sum_tolerance_counterexample :
    ¬ (|sumAmounts (calculateSettlements ["A", "B", "C"]
            [⟨"A", 27/1000⟩, ⟨"B", 27/1000⟩]) -
          posBalanceSum ["A", "B", "C"] [⟨"A", 27/1000⟩, ⟨"B", 27/1000⟩]| ≤
        1/100) := by decide

/-- C1 (amended): for every non-empty roster and expense list, the sum of
the transfer amounts never exceeds the sum of the positive member balances
nor the sum of the absolute values of the negative member balances, and it
is at least the smaller of those two sums minus `0.02` per roster member
(the per-member slack is forced by the `±0.01` classification tolerance:
members within tolerance are excluded from matching entirely, and each
matched member may retain a residual below the tolerance). -/
theorem calculateSettlements_sum_bounds (ms : List String)
    (es : List TripExpenseInput) (hms : ms ≠ []) :
    sumAmounts (calculateSettlements ms es) ≤ posBalanceSum ms es ∧
    sumAmounts (calculateSettlements ms es) ≤ negBalanceSum ms es ∧
    min (posBalanceSum ms es) (negBalanceSum ms es) -
        (2/100) * (ms.length : Rat) ≤
      sumAmounts (calculateSettlements ms es) := by
  have hlen : ¬ ms.length = 0 := by simpa using hms
  obtain ⟨out, hout, hub1, hub2, hlb⟩ :=
    settleLoop_spec ((debtors ms es).length + (creditors ms es).length)
      (debtors ms es) (creditors ms es)
      (debtors_invariant ms es) (creditors_invariant ms es) le_rfl
  have hcalc : calculateSettlements ms es = out := by
    rw [calculateSettlements, if_neg hlen, hout, Option.getD_some]
  set bs := balances ms es with hbs_def
  have hnC : negSum (debtors ms es) =
      negSum (bs.filter (fun b => b.balance < -(1/100))) := by
    rw [negSum, negSum]
    exact ((List.perm_insertionSort _ _).map _).sum_eq
  have hpC : posSum (creditors ms es) =
      posSum (bs.filter (fun b => b.balance > 1/100)) := by
    rw [posSum, posSum]
    exact ((List.perm_insertionSort _ _).map _).sum_eq
  have hlenD : (debtors ms es).length =
      (bs.filter (fun b => b.balance < -(1/100))).length :=
    (List.perm_insertionSort _ _).length_eq
  have hlenC : (creditors ms es).length =
      (bs.filter (fun b => b.balance > 1/100)).length :=
    (List.perm_insertionSort _ _).length_eq
  have hbslen : bs.length = ms.length := by
    rw [hbs_def, balances, List.length_map]
  set A : Rat := negSum (bs.filter (fun b => b.balance < -(1/100))) with hA_def
  set C : Rat := posSum (bs.filter (fun b => b.balance > 1/100)) with hC_def
  set P : Rat := posBalanceSum ms es with hP_def
  set N : Rat := negBalanceSum ms es with hN_def
  have hPle : P ≤ C + (1/100) * ((bs.filter
      (fun b => -(1/100) ≤ b.balance ∧ b.balance ≤ 1/100)).length : Rat) := by
    rw [hP_def, posBalanceSum]
    exact posPart_le_creditor_sum bs
  have hNle : N ≤ A + (1/100) * ((bs.filter
      (fun b => -(1/100) ≤ b.balance ∧ b.balance ≤ 1/100)).length : Rat) := by
    rw [hN_def, negBalanceSum]
    exact negPart_le_debtor_sum bs
  have hCleP : C ≤ P := by
    rw [hP_def, posBalanceSum]
    exact posSum_filter_le_posPart bs
  have hAleN : A ≤ N := by
    rw [hN_def, negBalanceSum]
    exact negSum_filter_le_negPart bs
  have hpart := balance_partition bs
  rw [hcalc] at *
  rw [hnC] at hub1 hlb
  rw [hpC] at hub2 hlb
  refine ⟨le_trans hub2 hCleP, le_trans hub1 hAleN, ?_⟩
  -- lower bound
  set m : Nat := (bs.filter
      (fun b => -(1/100) ≤ b.balance ∧ b.balance ≤ 1/100)).length with hm_def
  have hcast : ((debtors ms es).length : Rat) + ((creditors ms es).length : Rat) +
      (m : Rat) = (ms.length : Rat) := by
    rw [hlenD, hlenC]
    push_cast
    rw [← hbslen]
    exact_mod_cast (by omega : (bs.filter (fun b => b.balance < -(1/100))).length +
      (bs.filter (fun b => b.balance > 1/100)).length + m = bs.length)
  have hmnn : (0:Rat) ≤ (m : Rat) := Nat.cast_nonneg m
  have hlb' : min A C -
      (2/100) * (((debtors ms es).length : Rat) + ((creditors ms es).length : Rat)) ≤
      sumAmounts out := by
    have : (((debtors ms es).length + (creditors ms es).length : Nat) : Rat) =
        ((debtors ms es).length : Rat) + ((creditors ms es).length : Rat) := by
      push_cast
      ring
    rw [this] at hlb
    exact hlb
  rcases min_choice A C with hmin | hmin
  · -- min A C = A
    have h1 : min P N ≤ N := min_le_right _ _
    have h2 : min A C = A := hmin
    rw [h2] at hlb'
    linarith
  · have h1 : min P N ≤ P := min_le_left _ _
    have h2 : min A C = C := hmin
    rw [h2] at hlb'
    linarith

/-- Witness for C1 (amended) at the spec's own three-member scenario. -/
theorem calculateSettlements_sum_bounds_witness :
    sumAmounts (calculateSettlements ["Alice", "Bob", "Carol"] [⟨"Alice", 300⟩]) ≤
        posBalanceSum ["Alice", "Bob", "Carol"] [⟨"Alice", 300⟩] ∧
    sumAmounts (calculateSettlements ["Alice", "Bob", "Carol"] [⟨"Alice", 300⟩]) ≤
        negBalanceSum ["Alice", "Bob", "Carol"] [⟨"Alice", 300⟩] ∧
    min (posBalanceSum ["Alice", "Bob", "Carol"] [⟨"Alice", 300⟩])
          (negBalanceSum ["Alice", "Bob", "Carol"] [⟨"Alice", 300⟩]) -
        (2/100) * ((["Alice", "Bob", "Carol"] : List String).length : Rat) ≤
      sumAmounts (calculateSettlements ["Alice", "Bob", "Carol"] [⟨"Alice", 300⟩]) :=
  calculateSettlements_sum_bounds ["Alice", "Bob", "Carol"] [⟨"Alice", 300⟩]
    (by decide)

/-- C4: for every category whose name is in the fixed protected default
set, any attempt to delete it (addressed by its key) is rejected with the
typed constraint-violation error before any mutation, and the category
collection is left completely unchanged. -/
theorem deleteCategory_protected (cats : List (WithId CategoryData))
    (idv : Nat) (c : WithId CategoryData)
    (hfind : cats.find? (fun x => x.id == idv) = some c)
    (hdef : c.data.name ∈ defaultCategories) :
    deleteCategory cats idv =
      (Except.error "Cannot delete a default category.", cats) := by
  have hcont : defaultCategories.contains c.data.name = true :=
    List.elem_iff.mpr hdef
  rw [deleteCategory, hfind]
  simp [hcont, hdef]

/-- Witness for C4: deleting the protected category `"Groceries"`. -/
theorem deleteCategory_protected_witness :
    deleteCategory [⟨1, ⟨"Groceries"⟩⟩] 1 =
      (Except.error "Cannot delete a default category.", [⟨1, ⟨"Groceries"⟩⟩]) :=
  deleteCategory_protected [⟨1, ⟨"Groceries"⟩⟩] 1 ⟨1, ⟨"Groceries"⟩⟩
    (by decide) (by decide)

/-- C9: a `performDBOperation` call publishes exactly one change
notification if and only if its transaction is in write mode and commits
(the request succeeded); read-mode operations and aborted transactions
publish none, and no call ever publishes more than one. -/
theorem performDBOperation_events {σ β : Type} (mode : TxMode) (st : σ)
    (op : σ → Except String (σ × β)) :
    ((performDBOperation mode st op).2.2 = 1 ↔
      mode = TxMode.readwrite ∧ ∃ a, op st = Except.ok a) ∧
    ((performDBOperation mode st op).2.2 = 0 ↔
      mode = TxMode.readonly ∨ ∃ e, op st = Except.error e) ∧
    (performDBOperation mode st op).2.2 ≤ 1 := by
  cases hop : op st with
  | error e => cases mode <;> simp [performDBOperation, hop]
  | ok a => cases mode <;> simp [performDBOperation, hop]

/-- The cursor re-visiting loop advances an overdue date by whole positive
multiples of the interval, anchored at the original date, stopping at the
first multiple no longer before `today`; the recorded previous due date is
the one immediately preceding the final one. -/
theorem advanceDates_spec (today : Int) (i : Nat) (hi : 0 < i) :
    ∀ (n : Nat) (date : Int), (today - date).toNat ≤ n → date < today →
      ∃ k : Nat, 0 < k ∧
        (advanceDates today i date).1 = date + (k : Int) * (i : Int) ∧
        (advanceDates today i date).2 = date + ((k : Int) - 1) * (i : Int) ∧
        date + ((k : Int) - 1) * (i : Int) < today ∧
        today ≤ date + (k : Int) * (i : Int) := by
  intro n
  induction n with
  | zero =>
    intro date hn hd
    omega
  | succ n ih =>
    intro date hn hd
    rw [advanceDates]
    by_cases hstep : date + (i : Int) < today
    · rw [dif_pos ⟨hi, hstep⟩]
      obtain ⟨k, hk, h1, h2, h3, h4⟩ := ih (date + (i : Int)) (by omega) hstep
      refine ⟨k + 1, by omega, ?_, ?_, ?_, ?_⟩
      · rw [h1]; push_cast; ring
      · rw [h2]; push_cast; ring
      · have : date + ((k : Int) + 1 - 1) * (i : Int) =
            date + (i : Int) + ((k : Int) - 1) * (i : Int) := by ring
        push_cast
        rw [this]
        exact h3
      · have : date + ((k : Int) + 1) * (i : Int) =
            date + (i : Int) + (k : Int) * (i : Int) := by ring
        push_cast
        rw [this]
        exact h4
    · rw [dif_neg (by intro h; exact hstep h.2)]
      refine ⟨1, by omega, by push_cast; ring, by push_cast; ring, ?_, ?_⟩
      · push_cast
        simp only [zero_mul, one_mul, sub_self, add_zero]
        omega
      · push_cast
        simp only [zero_mul, one_mul, sub_self, add_zero]
        omega

/-- C5 counterexample: (a) an overdue recurring reminder whose
`repeatInterval` is `0` is deleted by the sweep (the falsy-interval guard
sends it down the delete branch), contradicting "never deleting a
recurring reminder"; (b) a recurring reminder 40 days overdue with a
30-day interval is advanced twice in one sweep invocation (the cursor
revisits the record after each update while its date is still inside the
range), ending at `+60` days with `lastTriggered` at `+30`, not advanced
by exactly one interval from its pre-sweep due date (`-10` with
`lastTriggered` `-40`). -/
theorem clearOldReminders_counterexample :
    clearOldReminders 0 [⟨"rent", -1, true, some 0, none⟩] = [] ∧
    clearOldReminders 0 [⟨"rent", -40, true, some 30, none⟩] =
      [⟨"rent", 20, true, some 30, some (-10)⟩] ∧
    clearOldReminders 0 [⟨"rent", -40, true, some 30, none⟩] ≠
      [⟨"rent", -10, true, some 30, some (-40)⟩] := by
  refine ⟨by decide, ?_, ?_⟩
  · have h1 : advanceDates 0 30 (-40) = (20, -10) := by
      rw [advanceDates, dif_pos (by norm_num), advanceDates, dif_neg (by norm_num)]
      norm_num
    simp [clearOldReminders, sweepReminder, h1]
  · have h1 : advanceDates 0 30 (-40) = (20, -10) := by
      rw [advanceDates, dif_pos (by norm_num), advanceDates, dif_neg (by norm_num)]
      norm_num
    simp [clearOldReminders, sweepReminder, h1]

/-- C5 (amended): one sweep invocation leaves reminders not yet due
untouched; it deletes every overdue reminder that is non-recurring or
lacks a present nonzero `repeatInterval`; and every overdue recurring
reminder with a present nonzero interval is never deleted — its due date
is advanced by a whole positive number of `repeatInterval`-day steps
anchored at the previous due date (never at "now"), to the first such
step not before the start of the current day, with `lastTriggered` set to
the due date immediately preceding the final one. -/
theorem clearOldReminders_spec (today : Int) (rs : List Reminder)
    (r : Reminder) (hr : r ∈ rs) :
    (today ≤ r.date → r ∈ clearOldReminders today rs) ∧
    (r.date < today → ¬(r.isRecurring = true ∧ r.repeatInterval.getD 0 ≠ 0) →
      sweepReminder today r = none) ∧
    (r.date < today → r.isRecurring = true → r.repeatInterval.getD 0 ≠ 0 →
      ∃ k : Nat, 0 < k ∧
        ({ r with
            date := r.date + (k : Int) * (r.repeatInterval.getD 0 : Int),
            lastTriggered :=
              some (r.date + ((k : Int) - 1) * (r.repeatInterval.getD 0 : Int)) } :
          Reminder) ∈ clearOldReminders today rs ∧
        r.date + ((k : Int) - 1) * (r.repeatInterval.getD 0 : Int) < today ∧
        today ≤ r.date + (k : Int) * (r.repeatInterval.getD 0 : Int)) := by
  refine ⟨?_, ?_, ?_⟩
  · intro hdate
    have hsweep : sweepReminder today r = some r := by
      rw [sweepReminder, if_neg (by omega)]
    exact List.mem_filterMap.2 ⟨r, hr, hsweep⟩
  · intro hdate hnot
    rw [sweepReminder, if_pos hdate, if_neg (by simpa using hnot)]
  · intro hdate hrec hint
    have hi : 0 < r.repeatInterval.getD 0 := Nat.pos_of_ne_zero hint
    obtain ⟨k, hk, h1, h2, h3, h4⟩ :=
      advanceDates_spec today (r.repeatInterval.getD 0) hi
        (today - r.date).toNat r.date le_rfl hdate
    refine ⟨k, hk, ?_, h3, h4⟩
    have hsweep : sweepReminder today r =
        some { r with
          date := r.date + (k : Int) * (r.repeatInterval.getD 0 : Int),
          lastTriggered :=
            some (r.date + ((k : Int) - 1) * (r.repeatInterval.getD 0 : Int)) } := by
      rw [sweepReminder, if_pos hdate, if_pos (by simp [hrec, hint]), h1, h2]
    exact List.mem_filterMap.2 ⟨r, hr, hsweep⟩

/-- Witness for C5 (amended): a reminder one day overdue with a 30-day
interval, in a roster also containing an overdue non-recurring reminder
and a future one. -/
theorem clearOldReminders_spec_witness :
    ((0 : Int) ≤ (⟨"bill", -1, true, some 30, none⟩ : Reminder).date →
      (⟨"bill", -1, true, some 30, none⟩ : Reminder) ∈
        clearOldReminders 0
          [⟨"trash", -1, false, none, none⟩, ⟨"bill", -1, true, some 30, none⟩]) ∧
    ((⟨"bill", -1, true, some 30, none⟩ : Reminder).date < 0 →
      ¬((⟨"bill", -1, true, some 30, none⟩ : Reminder).isRecurring = true ∧
        (⟨"bill", -1, true, some 30, none⟩ : Reminder).repeatInterval.getD 0 ≠ 0) →
      sweepReminder 0 (⟨"bill", -1, true, some 30, none⟩ : Reminder) = none) ∧
    ((⟨"bill", -1, true, some 30, none⟩ : Reminder).date < 0 →
      (⟨"bill", -1, true, some 30, none⟩ : Reminder).isRecurring = true →
      (⟨"bill", -1, true, some 30, none⟩ : Reminder).repeatInterval.getD 0 ≠ 0 →
      ∃ k : Nat, 0 < k ∧
        ({ (⟨"bill", -1, true, some 30, none⟩ : Reminder) with
            date := (⟨"bill", -1, true, some 30, none⟩ : Reminder).date +
              (k : Int) *
                ((⟨"bill", -1, true, some 30, none⟩ : Reminder).repeatInterval.getD 0 : Int),
            lastTriggered :=
              some ((⟨"bill", -1, true, some 30, none⟩ : Reminder).date +
                ((k : Int) - 1) *
                  ((⟨"bill", -1, true, some 30, none⟩ : Reminder).repeatInterval.getD 0 : Int)) } :
          Reminder) ∈
          clearOldReminders 0
            [⟨"trash", -1, false, none, none⟩, ⟨"bill", -1, true, some 30, none⟩] ∧
        (⟨"bill", -1, true, some 30, none⟩ : Reminder).date +
            ((k : Int) - 1) *
              ((⟨"bill", -1, true, some 30, none⟩ : Reminder).repeatInterval.getD 0 : Int) < 0 ∧
        (0 : Int) ≤ (⟨"bill", -1, true, some 30, none⟩ : Reminder).date +
            (k : Int) *
              ((⟨"bill", -1, true, some 30, none⟩ : Reminder).repeatInterval.getD 0 : Int)) :=
  clearOldReminders_spec 0
    [⟨"trash", -1, false, none, none⟩, ⟨"bill", -1, true, some 30, none⟩]
    ⟨"bill", -1, true, some 30, none⟩ (by decide)

theorem Col.addAll_spec {D : Type} :
    ∀ (l : List D) (c : Col D),
      (c.addAll l).recs = c.recs ++ assignIds c.nextId l ∧
      (c.addAll l).nextId = c.nextId + l.length := by
  intro l
  induction l with
  | nil => intro c; simp [Col.addAll, assignIds]
  | cons d ds ih =>
    intro c
    obtain ⟨h1, h2⟩ := ih (c.add d).1
    constructor
    · rw [Col.addAll, List.foldl_cons]
      rw [show (Col.addAll (c.add d).1 ds) = ds.foldl (fun c d => (c.add d).1) (c.add d).1 from rfl] at h1
      rw [h1]
      simp [Col.add, assignIds]
    · rw [Col.addAll, List.foldl_cons]
      rw [show (Col.addAll (c.add d).1 ds) = ds.foldl (fun c d => (c.add d).1) (c.add d).1 from rfl] at h2
      rw [h2]
      simp [Col.add, List.length_cons]
      omega

theorem assignIds_map_data {D : Type} :
    ∀ (l : List D) (n : Nat), (assignIds n l).map WithId.data = l := by
  intro l
  induction l with
  | nil => intro n; simp [assignIds]
  | cons d ds ih => intro n; simp [assignIds, ih]

theorem mem_assignIds_le {D : Type} :
    ∀ (l : List D) (n : Nat) (r : WithId D), r ∈ assignIds n l → n ≤ r.id := by
  intro l
  induction l with
  | nil => intro n r hr; simp [assignIds] at hr
  | cons d ds ih =>
    intro n r hr
    rcases List.mem_cons.1 hr with rfl | hr
    · simp
    · have := ih (n + 1) r hr
      omega

theorem assignIds_append {D : Type} :
    ∀ (l1 l2 : List D) (n : Nat),
      assignIds n (l1 ++ l2) = assignIds n l1 ++ assignIds (n + l1.length) l2 := by
  intro l1
  induction l1 with
  | nil => intro l2 n; simp [assignIds]
  | cons d ds ih =>
    intro l2 n
    have h : ((d :: ds) ++ l2 : List D) = d :: (ds ++ l2) := rfl
    rw [h]
    show (⟨n, d⟩ : WithId D) :: assignIds (n + 1) (ds ++ l2) = _
    rw [ih l2 (n + 1)]
    simp only [assignIds, List.cons_append, List.length_cons]
    rw [show n + (ds.length + 1) = n + 1 + ds.length from by omega]

/-- C3: exporting a trip and then importing it as new produces a trip
record with a different, store-assigned identifier but an identical
payload (name, members, status, creation timestamp), and a set of
trip-expenses whose amounts, descriptions and dates match the exported set
exactly, each with its original identifier discarded and its `tripId`
equal to the newly assigned trip identifier; the pre-existing records are
untouched (appended-to only). -/
theorem exportTrip_importTrip_roundTrip (db : DB) (tid : Nat) (now : String)
    (t : WithId TripData) (hwf : DB.WellFormed db)
    (ht : getTrip db tid = some t) :
    (importTrip db
        ⟨⟨some t.id, t.data⟩,
         (exportTrip db tid now).expenses.map (fun e => ⟨some e.id, e.data⟩)⟩).trips.recs =
      db.trips.recs ++ [⟨db.trips.nextId, t.data⟩] ∧
    t.id = tid ∧
    tid ≠ db.trips.nextId ∧
    (importTrip db
        ⟨⟨some t.id, t.data⟩,
         (exportTrip db tid now).expenses.map (fun e => ⟨some e.id, e.data⟩)⟩).tripExpenses.recs =
      db.tripExpenses.recs ++
        assignIds db.tripExpenses.nextId
          ((getTripExpenses db tid).map
            (fun e => { e.data with tripId := db.trips.nextId })) ∧
    ((getTripExpenses db tid).map
        (fun e => { e.data with tripId := db.trips.nextId })).map
      (fun d => (d.amount, d.description, d.date)) =
      ((exportTrip db tid now).expenses).map
        (fun e => (e.data.amount, e.data.description, e.data.date)) ∧
    (∀ d ∈ (getTripExpenses db tid).map
        (fun e => { e.data with tripId := db.trips.nextId }),
      d.tripId = db.trips.nextId) := by
  have htid : t.id = tid := by
    have := List.find?_some ht
    simpa using this
  have hmem : t ∈ db.trips.recs := List.mem_of_find?_eq_some ht
  have hlt : t.id < db.trips.nextId := hwf.1 t hmem
  refine ⟨?_, htid, by omega, ?_, ?_, ?_⟩
  · rfl
  · have hmapmap :
        ((exportTrip db tid now).expenses.map
            (fun e => (⟨some e.id, e.data⟩ : PRec TripExpenseData))).map
          (fun ex => ({ ex.data with tripId := (db.trips.add t.data).2 } :
            TripExpenseData)) =
        (getTripExpenses db tid).map
          (fun e => { e.data with tripId := db.trips.nextId }) := by
      rw [List.map_map]
      rfl
    show (db.tripExpenses.addAll _).recs = _
    rw [(Col.addAll_spec _ _).1, hmapmap]
  · rw [List.map_map, exportTrip]
    rfl
  · intro d hd
    obtain ⟨e, -, rfl⟩ := List.mem_map.1 hd
    rfl

/-- Witness for C3 on a one-trip store with a single trip-expense. -/
theorem exportTrip_importTrip_roundTrip_witness :
    (importTrip
        ⟨⟨[], 1⟩, ⟨[], 1⟩, ⟨[], 1⟩, none, ⟨[], 1⟩,
         ⟨[⟨1, ⟨"Goa", ["A", "B"], "2024-01-01", "active"⟩⟩], 2⟩,
         ⟨[⟨1, ⟨1, "A", 100, "taxi", "2024-01-02"⟩⟩], 2⟩⟩
        ⟨⟨some (⟨1, ⟨"Goa", ["A", "B"], "2024-01-01", "active"⟩⟩ :
              WithId TripData).id,
          (⟨1, ⟨"Goa", ["A", "B"], "2024-01-01", "active"⟩⟩ :
              WithId TripData).data⟩,
         (exportTrip
            ⟨⟨[], 1⟩, ⟨[], 1⟩, ⟨[], 1⟩, none, ⟨[], 1⟩,
             ⟨[⟨1, ⟨"Goa", ["A", "B"], "2024-01-01", "active"⟩⟩], 2⟩,
             ⟨[⟨1, ⟨1, "A", 100, "taxi", "2024-01-02"⟩⟩], 2⟩⟩ 1 "now").expenses.map
           (fun e => ⟨some e.id, e.data⟩)⟩).trips.recs =
      (⟨⟨[], 1⟩, ⟨[], 1⟩, ⟨[], 1⟩, none, ⟨[], 1⟩,
        ⟨[⟨1, ⟨"Goa", ["A", "B"], "2024-01-01", "active"⟩⟩], 2⟩,
        ⟨[⟨1, ⟨1, "A", 100, "taxi", "2024-01-02"⟩⟩], 2⟩⟩ : DB).trips.recs ++
        [⟨(⟨⟨[], 1⟩, ⟨[], 1⟩, ⟨[], 1⟩, none, ⟨[], 1⟩,
            ⟨[⟨1, ⟨"Goa", ["A", "B"], "2024-01-01", "active"⟩⟩], 2⟩,
            ⟨[⟨1, ⟨1, "A", 100, "taxi", "2024-01-02"⟩⟩], 2⟩⟩ : DB).trips.nextId,
          (⟨1, ⟨"Goa", ["A", "B"], "2024-01-01", "active"⟩⟩ :
              WithId TripData).data⟩] ∧
    (⟨1, ⟨"Goa", ["A", "B"], "2024-01-01", "active"⟩⟩ :
        WithId TripData).id = 1 ∧
    1 ≠ (⟨⟨[], 1⟩, ⟨[], 1⟩, ⟨[], 1⟩, none, ⟨[], 1⟩,
          ⟨[⟨1, ⟨"Goa", ["A", "B"], "2024-01-01", "active"⟩⟩], 2⟩,
          ⟨[⟨1, ⟨1, "A", 100, "taxi", "2024-01-02"⟩⟩], 2⟩⟩ : DB).trips.nextId ∧
    (importTrip
        ⟨⟨[], 1⟩, ⟨[], 1⟩, ⟨[], 1⟩, none, ⟨[], 1⟩,
         ⟨[⟨1, ⟨"Goa", ["A", "B"], "2024-01-01", "active"⟩⟩], 2⟩,
         ⟨[⟨1, ⟨1, "A", 100, "taxi", "2024-01-02"⟩⟩], 2⟩⟩
        ⟨⟨some (⟨1, ⟨"Goa", ["A", "B"], "2024-01-01", "active"⟩⟩ :
              WithId TripData).id,
          (⟨1, ⟨"Goa", ["A", "B"], "2024-01-01", "active"⟩⟩ :
              WithId TripData).data⟩,
         (exportTrip
            ⟨⟨[], 1⟩, ⟨[], 1⟩, ⟨[], 1⟩, none, ⟨[], 1⟩,
             ⟨[⟨1, ⟨"Goa", ["A", "B"], "2024-01-01", "active"⟩⟩], 2⟩,
             ⟨[⟨1, ⟨1, "A", 100, "taxi", "2024-01-02"⟩⟩], 2⟩⟩ 1 "now").expenses.map
           (fun e => ⟨some e.id, e.data⟩)⟩).tripExpenses.recs =
      (⟨⟨[], 1⟩, ⟨[], 1⟩, ⟨[], 1⟩, none, ⟨[], 1⟩,
        ⟨[⟨1, ⟨"Goa", ["A", "B"], "2024-01-01", "active"⟩⟩], 2⟩,
        ⟨[⟨1, ⟨1, "A", 100, "taxi", "2024-01-02"⟩⟩], 2⟩⟩ : DB).tripExpenses.recs ++
        assignIds
          (⟨⟨[], 1⟩, ⟨[], 1⟩, ⟨[], 1⟩, none, ⟨[], 1⟩,
            ⟨[⟨1, ⟨"Goa", ["A", "B"], "2024-01-01", "active"⟩⟩], 2⟩,
            ⟨[⟨1, ⟨1, "A", 100, "taxi", "2024-01-02"⟩⟩], 2⟩⟩ : DB).tripExpenses.nextId
          ((getTripExpenses
              ⟨⟨[], 1⟩, ⟨[], 1⟩, ⟨[], 1⟩, none, ⟨[], 1⟩,
               ⟨[⟨1, ⟨"Goa", ["A", "B"], "2024-01-01", "active"⟩⟩], 2⟩,
               ⟨[⟨1, ⟨1, "A", 100, "taxi", "2024-01-02"⟩⟩], 2⟩⟩ 1).map
            (fun e => { e.data with
              tripId := (⟨⟨[], 1⟩, ⟨[], 1⟩, ⟨[], 1⟩, none, ⟨[], 1⟩,
                ⟨[⟨1, ⟨"Goa", ["A", "B"], "2024-01-01", "active"⟩⟩], 2⟩,
                ⟨[⟨1, ⟨1, "A", 100, "taxi", "2024-01-02"⟩⟩], 2⟩⟩ : DB).trips.nextId })) ∧
    ((getTripExpenses
        ⟨⟨[], 1⟩, ⟨[], 1⟩, ⟨[], 1⟩, none, ⟨[], 1⟩,
         ⟨[⟨1, ⟨"Goa", ["A", "B"], "2024-01-01", "active"⟩⟩], 2⟩,
         ⟨[⟨1, ⟨1, "A", 100, "taxi", "2024-01-02"⟩⟩], 2⟩⟩ 1).map
        (fun e => { e.data with
          tripId := (⟨⟨[], 1⟩, ⟨[], 1⟩, ⟨[], 1⟩, none, ⟨[], 1⟩,
            ⟨[⟨1, ⟨"Goa", ["A", "B"], "2024-01-01", "active"⟩⟩], 2⟩,
            ⟨[⟨1, ⟨1, "A", 100, "taxi", "2024-01-02"⟩⟩], 2⟩⟩ : DB).trips.nextId })).map
      (fun d => (d.amount, d.description, d.date)) =
      ((exportTrip
          ⟨⟨[], 1⟩, ⟨[], 1⟩, ⟨[], 1⟩, none, ⟨[], 1⟩,
           ⟨[⟨1, ⟨"Goa", ["A", "B"], "2024-01-01", "active"⟩⟩], 2⟩,
           ⟨[⟨1, ⟨1, "A", 100, "taxi", "2024-01-02"⟩⟩], 2⟩⟩ 1 "now").expenses).map
        (fun e => (e.data.amount, e.data.description, e.data.date)) ∧
    (∀ d ∈ (getTripExpenses
        ⟨⟨[], 1⟩, ⟨[], 1⟩, ⟨[], 1⟩, none, ⟨[], 1⟩,
         ⟨[⟨1, ⟨"Goa", ["A", "B"], "2024-01-01", "active"⟩⟩], 2⟩,
         ⟨[⟨1, ⟨1, "A", 100, "taxi", "2024-01-02"⟩⟩], 2⟩⟩ 1).map
        (fun e => { e.data with
          tripId := (⟨⟨[], 1⟩, ⟨[], 1⟩, ⟨[], 1⟩, none, ⟨[], 1⟩,
            ⟨[⟨1, ⟨"Goa", ["A", "B"], "2024-01-01", "active"⟩⟩], 2⟩,
            ⟨[⟨1, ⟨1, "A", 100, "taxi", "2024-01-02"⟩⟩], 2⟩⟩ : DB).trips.nextId }),
      d.tripId = (⟨⟨[], 1⟩, ⟨[], 1⟩, ⟨[], 1⟩, none, ⟨[], 1⟩,
        ⟨[⟨1, ⟨"Goa", ["A", "B"], "2024-01-01", "active"⟩⟩], 2⟩,
        ⟨[⟨1, ⟨1, "A", 100, "taxi", "2024-01-02"⟩⟩], 2⟩⟩ : DB).trips.nextId) :=
  exportTrip_importTrip_roundTrip
    ⟨⟨[], 1⟩, ⟨[], 1⟩, ⟨[], 1⟩, none, ⟨[], 1⟩,
     ⟨[⟨1, ⟨"Goa", ["A", "B"], "2024-01-01", "active"⟩⟩], 2⟩,
     ⟨[⟨1, ⟨1, "A", 100, "taxi", "2024-01-02"⟩⟩], 2⟩⟩ 1 "now"
    ⟨1, ⟨"Goa", ["A", "B"], "2024-01-01", "active"⟩⟩
    (by constructor <;> decide) (by decide)

theorem importCategoriesPhase_spec :
    ∀ (cats : List (PRec CategoryData)) (pre : List (WithId CategoryData))
      (col col' : Col CategoryData),
      importCategoriesPhase pre col cats = some col' →
      col'.recs = col.recs ++
        assignIds col.nextId
          ((cats.filter
              (fun c => !(pre.any (fun r => r.data.name == c.data.name)))).map
            (fun c => (⟨c.data.name⟩ : CategoryData))) := by
  intro cats
  induction cats with
  | nil =>
    intro pre col col' h
    simp only [importCategoriesPhase, Option.some.injEq] at h
    subst h
    simp [assignIds]
  | cons c cs ih =>
    intro pre col col' h
    rw [importCategoriesPhase] at h
    by_cases hpre : pre.any (fun r => r.data.name == c.data.name)
    · rw [if_pos hpre] at h
      rw [ih pre col col' h, List.filter_cons_of_neg (by simp [hpre])]
    · rw [if_neg hpre] at h
      by_cases hcur : col.recs.any (fun r => r.data.name == c.data.name)
      · rw [if_pos hcur] at h
        simp at h
      · rw [if_neg hcur] at h
        rw [ih pre (col.add ⟨c.data.name⟩).1 col' h,
          List.filter_cons_of_pos (by simp [hpre])]
        simp only [Col.add, List.map_cons, assignIds]
        rw [List.append_assoc]
        rfl

theorem tripExpenseBatch_tripId (expenseData : Option (List (PRec TripExpenseData)))
    (oldId? : Option Nat) (newId : Nat) :
    ∀ d ∈ tripExpenseBatch expenseData oldId? newId, d.tripId = newId := by
  intro d hd
  match expenseData, oldId? with
  | some exps, some oldId =>
    rw [tripExpenseBatch] at hd
    split at hd
    · obtain ⟨ex, -, rfl⟩ := List.mem_map.1 hd
      rfl
    · simp at hd
  | some exps, none => simp [tripExpenseBatch] at hd
  | none, _ => simp [tripExpenseBatch] at hd

theorem expectedTripExpenses_tripId_ge :
    ∀ (trips : List (PRec TripData))
      (expenseData : Option (List (PRec TripExpenseData))) (base : Nat)
      (d : TripExpenseData),
      d ∈ expectedTripExpenses base trips expenseData → base ≤ d.tripId := by
  intro trips
  induction trips with
  | nil => intro e base d hd; simp [expectedTripExpenses] at hd
  | cons t ts ih =>
    intro e base d hd
    rw [expectedTripExpenses] at hd
    rcases List.mem_append.1 hd with hd | hd
    · rw [tripExpenseBatch_tripId e t.id base d hd]
    · have := ih e (base + 1) d hd
      omega

theorem importTripsPhase_spec :
    ∀ (trips : List (PRec TripData)) (db : DB)
      (expenseData : Option (List (PRec TripExpenseData))),
      (importTripsPhase db trips expenseData).expenses = db.expenses ∧
      (importTripsPhase db trips expenseData).categories = db.categories ∧
      (importTripsPhase db trips expenseData).reminders = db.reminders ∧
      (importTripsPhase db trips expenseData).settings = db.settings ∧
      (importTripsPhase db trips expenseData).savings = db.savings ∧
      (importTripsPhase db trips expenseData).trips.recs =
        db.trips.recs ++ assignIds db.trips.nextId (trips.map PRec.data) ∧
      (importTripsPhase db trips expenseData).tripExpenses.recs =
        db.tripExpenses.recs ++
          assignIds db.tripExpenses.nextId
            (expectedTripExpenses db.trips.nextId trips expenseData) := by
  intro trips
  induction trips with
  | nil =>
    intro db e
    refine ⟨rfl, rfl, rfl, rfl, rfl, ?_, ?_⟩ <;>
      simp [importTripsPhase, expectedTripExpenses, assignIds]
  | cons t ts ih =>
    intro db e
    rw [importTripsPhase, expectedTripExpenses]
    set db2 : DB :=
      { db with
        trips := (db.trips.add t.data).1,
        tripExpenses := ({ db with trips := (db.trips.add t.data).1 } :
          DB).tripExpenses.addAll
            (tripExpenseBatch e t.id (db.trips.add t.data).2) } with hdb2_def
    set batch : List TripExpenseData :=
      tripExpenseBatch e t.id db.trips.nextId with hbatch_def
    have hbatch_same : tripExpenseBatch e t.id (db.trips.add t.data).2 = batch := by
      rw [hbatch_def]
      rfl
    have he : db2.expenses = db.expenses := rfl
    have hc : db2.categories = db.categories := rfl
    have hr : db2.reminders = db.reminders := rfl
    have hs : db2.settings = db.settings := rfl
    have hsv : db2.savings = db.savings := rfl
    have htr : db2.trips.recs = db.trips.recs ++ [⟨db.trips.nextId, t.data⟩] := rfl
    have htn : db2.trips.nextId = db.trips.nextId + 1 := rfl
    have hter : db2.tripExpenses.recs =
        db.tripExpenses.recs ++ assignIds db.tripExpenses.nextId batch := by
      rw [hdb2_def]
      show (Col.addAll _ _).recs = _
      rw [(Col.addAll_spec _ _).1, hbatch_same]
    have hten : db2.tripExpenses.nextId =
        db.tripExpenses.nextId + batch.length := by
      rw [hdb2_def]
      show (Col.addAll _ _).nextId = _
      rw [(Col.addAll_spec _ _).2, hbatch_same]
    obtain ⟨ihe, ihc, ihr, ihs, ihsv, ihtr, ihter⟩ := ih db2 e
    refine ⟨by rw [ihe, he], by rw [ihc, hc], by rw [ihr, hr],
      by rw [ihs, hs], by rw [ihsv, hsv], ?_, ?_⟩
    · rw [ihtr, htr, htn]
      simp only [List.map_cons, assignIds, List.append_assoc, List.cons_append,
        List.nil_append]
    · rw [ihter, hter, hten, htn]
      rw [List.append_assoc, ← assignIds_append]

theorem importExpensesPhase_spec (db : DB)
    (pe : Option (List (PRec ExpenseData))) :
    (importExpensesPhase db pe).expenses.recs =
      db.expenses.recs ++
        assignIds db.expenses.nextId ((pe.getD []).map PRec.data) ∧
    (importExpensesPhase db pe).categories = db.categories ∧
    (importExpensesPhase db pe).reminders = db.reminders ∧
    (importExpensesPhase db pe).settings = db.settings ∧
    (importExpensesPhase db pe).savings = db.savings ∧
    (importExpensesPhase db pe).trips = db.trips ∧
    (importExpensesPhase db pe).tripExpenses = db.tripExpenses := by
  cases pe with
  | none => exact ⟨by simp [importExpensesPhase, assignIds], rfl, rfl, rfl, rfl, rfl, rfl⟩
  | some l =>
    refine ⟨?_, rfl, rfl, rfl, rfl, rfl, rfl⟩
    show (Col.addAll _ _).recs = _
    rw [(Col.addAll_spec _ _).1]
    rfl

theorem importRemindersPhase_spec (db : DB)
    (pr : Option (List (PRec Reminder))) :
    (importRemindersPhase db pr).reminders.recs =
      db.reminders.recs ++
        assignIds db.reminders.nextId ((pr.getD []).map PRec.data) ∧
    (importRemindersPhase db pr).expenses = db.expenses ∧
    (importRemindersPhase db pr).categories = db.categories ∧
    (importRemindersPhase db pr).settings = db.settings ∧
    (importRemindersPhase db pr).savings = db.savings ∧
    (importRemindersPhase db pr).trips = db.trips ∧
    (importRemindersPhase db pr).tripExpenses = db.tripExpenses := by
  cases pr with
  | none => exact ⟨by simp [importRemindersPhase, assignIds], rfl, rfl, rfl, rfl, rfl, rfl⟩
  | some l =>
    refine ⟨?_, rfl, rfl, rfl, rfl, rfl, rfl⟩
    show (Col.addAll _ _).recs = _
    rw [(Col.addAll_spec _ _).1]
    rfl

theorem importSettingsPhase_spec (db : DB) (ps : Option SettingsData) :
    (importSettingsPhase db ps).settings =
      (match ps with | none => db.settings | some s => some s) ∧
    (importSettingsPhase db ps).expenses = db.expenses ∧
    (importSettingsPhase db ps).categories = db.categories ∧
    (importSettingsPhase db ps).reminders = db.reminders ∧
    (importSettingsPhase db ps).savings = db.savings ∧
    (importSettingsPhase db ps).trips = db.trips ∧
    (importSettingsPhase db ps).tripExpenses = db.tripExpenses := by
  cases ps with
  | none => exact ⟨rfl, rfl, rfl, rfl, rfl, rfl, rfl⟩
  | some s => exact ⟨rfl, rfl, rfl, rfl, rfl, rfl, rfl⟩

theorem importSavingsPhase_spec (db : DB)
    (psv : Option (List (PRec SavingsData))) :
    (importSavingsPhase db psv).savings.recs =
      db.savings.recs ++
        assignIds db.savings.nextId ((psv.getD []).map PRec.data) ∧
    (importSavingsPhase db psv).expenses = db.expenses ∧
    (importSavingsPhase db psv).categories = db.categories ∧
    (importSavingsPhase db psv).reminders = db.reminders ∧
    (importSavingsPhase db psv).settings = db.settings ∧
    (importSavingsPhase db psv).trips = db.trips ∧
    (importSavingsPhase db psv).tripExpenses = db.tripExpenses := by
  cases psv with
  | none => exact ⟨by simp [importSavingsPhase, assignIds], rfl, rfl, rfl, rfl, rfl, rfl⟩
  | some l =>
    refine ⟨?_, rfl, rfl, rfl, rfl, rfl, rfl⟩
    show (Col.addAll _ _).recs = _
    rw [(Col.addAll_spec _ _).1]
    rfl

theorem importData_tail_spec (db1 : DB) (catCol : Col CategoryData)
    (p : ImportPayload) :
    ((match p.trips with
      | none =>
        importSavingsPhase
          (importSettingsPhase
            (importRemindersPhase { db1 with categories := catCol } p.reminders)
            p.settings) p.savingsTransactions
      | some trips =>
        importTripsPhase
          (importSavingsPhase
            (importSettingsPhase
              (importRemindersPhase { db1 with categories := catCol } p.reminders)
              p.settings) p.savingsTransactions) trips p.trip_expenses) : DB).expenses =
        db1.expenses ∧
    ((match p.trips with
      | none =>
        importSavingsPhase
          (importSettingsPhase
            (importRemindersPhase { db1 with categories := catCol } p.reminders)
            p.settings) p.savingsTransactions
      | some trips =>
        importTripsPhase
          (importSavingsPhase
            (importSettingsPhase
              (importRemindersPhase { db1 with categories := catCol } p.reminders)
              p.settings) p.savingsTransactions) trips p.trip_expenses) : DB).categories =
        catCol ∧
    ((match p.trips with
      | none =>
        importSavingsPhase
          (importSettingsPhase
            (importRemindersPhase { db1 with categories := catCol } p.reminders)
            p.settings) p.savingsTransactions
      | some trips =>
        importTripsPhase
          (importSavingsPhase
            (importSettingsPhase
              (importRemindersPhase { db1 with categories := catCol } p.reminders)
              p.settings) p.savingsTransactions) trips p.trip_expenses) : DB).reminders.recs =
        db1.reminders.recs ++
          assignIds db1.reminders.nextId ((p.reminders.getD []).map PRec.data) ∧
    ((match p.trips with
      | none =>
        importSavingsPhase
          (importSettingsPhase
            (importRemindersPhase { db1 with categories := catCol } p.reminders)
            p.settings) p.savingsTransactions
      | some trips =>
        importTripsPhase
          (importSavingsPhase
            (importSettingsPhase
              (importRemindersPhase { db1 with categories := catCol } p.reminders)
              p.settings) p.savingsTransactions) trips p.trip_expenses) : DB).settings =
        (match p.settings with | none => db1.settings | some s => some s) ∧
    ((match p.trips with
      | none =>
        importSavingsPhase
          (importSettingsPhase
            (importRemindersPhase { db1 with categories := catCol } p.reminders)
            p.settings) p.savingsTransactions
      | some trips =>
        importTripsPhase
          (importSavingsPhase
            (importSettingsPhase
              (importRemindersPhase { db1 with categories := catCol } p.reminders)
              p.settings) p.savingsTransactions) trips p.trip_expenses) : DB).savings.recs =
        db1.savings.recs ++
          assignIds db1.savings.nextId
            ((p.savingsTransactions.getD []).map PRec.data) ∧
    ((match p.trips with
      | none =>
        importSavingsPhase
          (importSettingsPhase
            (importRemindersPhase { db1 with categories := catCol } p.reminders)
            p.settings) p.savingsTransactions
      | some trips =>
        importTripsPhase
          (importSavingsPhase
            (importSettingsPhase
              (importRemindersPhase { db1 with categories := catCol } p.reminders)
              p.settings) p.savingsTransactions) trips p.trip_expenses) : DB).trips.recs =
        db1.trips.recs ++
          assignIds db1.trips.nextId ((p.trips.getD []).map PRec.data) ∧
    ((match p.trips with
      | none =>
        importSavingsPhase
          (importSettingsPhase
            (importRemindersPhase { db1 with categories := catCol } p.reminders)
            p.settings) p.savingsTransactions
      | some trips =>
        importTripsPhase
          (importSavingsPhase
            (importSettingsPhase
              (importRemindersPhase { db1 with categories := catCol } p.reminders)
              p.settings) p.savingsTransactions) trips p.trip_expenses) : DB).tripExpenses.recs =
        db1.tripExpenses.recs ++
          assignIds db1.tripExpenses.nextId
            (expectedTripExpenses db1.trips.nextId (p.trips.getD [])
              p.trip_expenses) := by
  set db2 : DB := { db1 with categories := catCol } with hdb2
  set db3 : DB := importRemindersPhase db2 p.reminders with hdb3
  set db4 : DB := importSettingsPhase db3 p.settings with hdb4
  set db5 : DB := importSavingsPhase db4 p.savingsTransactions with hdb5
  obtain ⟨h3r, h3e, h3c, h3s, h3sv, h3t, h3te⟩ :=
    importRemindersPhase_spec db2 p.reminders
  obtain ⟨h4s, h4e, h4c, h4r, h4sv, h4t, h4te⟩ :=
    importSettingsPhase_spec db3 p.settings
  obtain ⟨h5sv, h5e, h5c, h5r, h5s, h5t, h5te⟩ :=
    importSavingsPhase_spec db4 p.savingsTransactions
  have hd2e : db2.expenses = db1.expenses := rfl
  have hd2c : db2.categories = catCol := rfl
  have hd2r : db2.reminders = db1.reminders := rfl
  have hd2s : db2.settings = db1.settings := rfl
  have hd2sv : db2.savings = db1.savings := rfl
  have hd2t : db2.trips = db1.trips := rfl
  have hd2te : db2.tripExpenses = db1.tripExpenses := rfl
  have h5e' : db5.expenses = db1.expenses := by rw [h5e, h4e, h3e, hd2e]
  have h5c' : db5.categories = catCol := by rw [h5c, h4c, h3c, hd2c]
  have h5r' : db5.reminders.recs =
      db1.reminders.recs ++
        assignIds db1.reminders.nextId ((p.reminders.getD []).map PRec.data) := by
    rw [h5r, h4r, h3r, hd2r]
  have h5s' : db5.settings =
      (match p.settings with | none => db1.settings | some s => some s) := by
    rw [h5s, h4s, h3s, hd2s]
  have h5sv' : db5.savings.recs =
      db1.savings.recs ++
        assignIds db1.savings.nextId
          ((p.savingsTransactions.getD []).map PRec.data) := by
    rw [h5sv, h4sv, h3sv, hd2sv]
  have h5t' : db5.trips = db1.trips := by rw [h5t, h4t, h3t, hd2t]
  have h5te' : db5.tripExpenses = db1.tripExpenses := by
    rw [h5te, h4te, h3te, hd2te]
  cases hpt : p.trips with
  | none =>
    refine ⟨h5e', h5c', h5r', h5s', h5sv', ?_, ?_⟩
    · rw [h5t']
      simp [assignIds]
    · rw [h5te']
      simp [expectedTripExpenses, assignIds]
  | some trips =>
    obtain ⟨hte, htc, htr, hts, htsv, httr, htte⟩ :=
      importTripsPhase_spec trips db5 p.trip_expenses
    refine ⟨by rw [hte, h5e'], by rw [htc, h5c'], by rw [htr]; exact h5r',
      by rw [hts]; exact h5s', by rw [htsv]; exact h5sv', ?_, ?_⟩
    · rw [httr, h5t']
      simp
    · rw [htte, h5te', h5t']
      simp

/-- C2 (amended): a successful whole-database import appends every record
of the expenses, reminders, savings-transactions, trips and trip-expenses
payload collections to the existing data — never replacing or clearing the
existing records, which remain as an unchanged prefix — with original
identifiers stripped so the store reassigns them; a payload category is
appended (name only) exactly when no existing category already has its
name; the settings record is merged/overwritten at its fixed key; each
imported trip receives a fresh identifier distinct from every pre-existing
trip's identifier (so after importing a trip whose original identifier
collides with an existing trip's, two distinct trips exist and the
pre-existing one is untouched), and every imported trip-expense has its
`tripId` rewritten to a freshly assigned trip identifier, never to a
pre-existing one. -/
theorem importData_spec (db : DB) (p : ImportPayload) (db' : DB)
    (hwf : DB.WellFormed db) (h : importData db p = some db') :
    db'.expenses.recs = db.expenses.recs ++
      assignIds db.expenses.nextId ((p.expenses.getD []).map PRec.data) ∧
    db'.reminders.recs = db.reminders.recs ++
      assignIds db.reminders.nextId ((p.reminders.getD []).map PRec.data) ∧
    db'.savings.recs = db.savings.recs ++
      assignIds db.savings.nextId
        ((p.savingsTransactions.getD []).map PRec.data) ∧
    db'.categories.recs = db.categories.recs ++
      assignIds db.categories.nextId
        (((p.categories.getD []).filter
            (fun c => !(db.categories.recs.any
              (fun r => r.data.name == c.data.name)))).map
          (fun c => (⟨c.data.name⟩ : CategoryData))) ∧
    db'.settings = (match p.settings with
                    | none => db.settings
                    | some s => some s) ∧
    db'.trips.recs = db.trips.recs ++
      assignIds db.trips.nextId ((p.trips.getD []).map PRec.data) ∧
    db'.tripExpenses.recs = db.tripExpenses.recs ++
      assignIds db.tripExpenses.nextId
        (expectedTripExpenses db.trips.nextId (p.trips.getD [])
          p.trip_expenses) ∧
    (∀ rOld ∈ db.trips.recs,
      ∀ rNew ∈ assignIds db.trips.nextId ((p.trips.getD []).map PRec.data),
        rOld.id ≠ rNew.id) ∧
    (∀ d ∈ expectedTripExpenses db.trips.nextId (p.trips.getD [])
        p.trip_expenses, db.trips.nextId ≤ d.tripId) := by
  obtain ⟨h1e, h1c, h1r, h1s, h1sv, h1t, h1te⟩ :=
    importExpensesPhase_spec db p.expenses
  rw [importData] at h
  set db1 : DB := importExpensesPhase db p.expenses with hdb1
  have hfresh : ∀ rOld ∈ db.trips.recs,
      ∀ rNew ∈ assignIds db.trips.nextId ((p.trips.getD []).map PRec.data),
        rOld.id ≠ rNew.id := by
    intro rOld hOld rNew hNew
    have h1 := hwf.1 rOld hOld
    have h2 := mem_assignIds_le _ _ _ hNew
    omega
  have hte := expectedTripExpenses_tripId_ge (p.trips.getD []) p.trip_expenses
    db.trips.nextId
  cases hpc : p.categories with
  | none =>
    rw [hpc] at h
    simp only [Option.some.injEq] at h
    obtain ⟨t1, t2, t3, t4, t5, t6, t7⟩ := importData_tail_spec db1 db1.categories p
    subst h
    refine ⟨?_, ?_, ?_, ?_, ?_, ?_, ?_, hfresh, hte⟩
    · rw [t1, h1e]
    · rw [t3, h1r]
    · rw [t5, h1sv]
    · rw [t2, h1c]
      simp [assignIds]
    · rw [t4, h1s]
    · rw [t6, h1t]
    · rw [t7, h1te, h1t]
  | some cats =>
    rw [hpc] at h
    dsimp only at h
    cases hphase : importCategoriesPhase db1.categories.recs db1.categories cats with
    | none => rw [hphase] at h; simp at h
    | some catCol =>
      rw [hphase] at h
      simp only [Option.some.injEq] at h
      obtain ⟨t1, t2, t3, t4, t5, t6, t7⟩ := importData_tail_spec db1 catCol p
      subst h
      refine ⟨?_, ?_, ?_, ?_, ?_, ?_, ?_, hfresh, hte⟩
      · rw [t1, h1e]
      · rw [t3, h1r]
      · rw [t5, h1sv]
      · rw [t2, importCategoriesPhase_spec cats db1.categories.recs db1.categories
          catCol hphase, h1c]
        rfl
      · rw [t4, h1s]
      · rw [t6, h1t]
      · rw [t7, h1te, h1t]

/-- C2 counterexample: a whole-database import whose payload consists of a
single category record named `"Groceries"`, against a store that already
has a category of that name, is a no-op — the payload record is *not*
appended (the name-indexed lookup suppresses it), so the import does not
append every record of every payload collection. -/
theorem importData_counterexample :
    importData
      ⟨⟨[], 1⟩, ⟨[⟨1, ⟨"Groceries"⟩⟩], 2⟩, ⟨[], 1⟩, none, ⟨[], 1⟩, ⟨[], 1⟩,
       ⟨[], 1⟩⟩
      ⟨none, some [⟨some 7, ⟨"Groceries"⟩⟩], none, none, none, none, none⟩ =
      some
        ⟨⟨[], 1⟩, ⟨[⟨1, ⟨"Groceries"⟩⟩], 2⟩, ⟨[], 1⟩, none, ⟨[], 1⟩, ⟨[], 1⟩,
         ⟨[], 1⟩⟩ := by decide

/-- Witness for C2 (amended): importing a trip whose original identifier
`1` collides with the existing trip `1`; the result holds both trips, the
pre-existing one untouched, and the imported expense's `tripId` is the new
key `2`. -/
theorem importData_spec_witness :
    (⟨⟨[], 1⟩, ⟨[], 1⟩, ⟨[], 1⟩, none, ⟨[], 1⟩,
      ⟨[⟨1, ⟨"Goa", ["A"], "d1", "active"⟩⟩, ⟨2, ⟨"Paris", ["B"], "d2", "active"⟩⟩], 3⟩,
      ⟨[⟨1, ⟨1, "A", 5, "old", "d1"⟩⟩, ⟨2, ⟨2, "B", 7, "new", "d2"⟩⟩], 3⟩⟩ : DB).expenses.recs = (⟨⟨[], 1⟩, ⟨[], 1⟩, ⟨[], 1⟩, none, ⟨[], 1⟩,
      ⟨[⟨1, ⟨"Goa", ["A"], "d1", "active"⟩⟩], 2⟩,
      ⟨[⟨1, ⟨1, "A", 5, "old", "d1"⟩⟩], 2⟩⟩ : DB).expenses.recs ++
      assignIds (⟨⟨[], 1⟩, ⟨[], 1⟩, ⟨[], 1⟩, none, ⟨[], 1⟩,
      ⟨[⟨1, ⟨"Goa", ["A"], "d1", "active"⟩⟩], 2⟩,
      ⟨[⟨1, ⟨1, "A", 5, "old", "d1"⟩⟩], 2⟩⟩ : DB).expenses.nextId (((⟨none, none, none, none, none,
      some [⟨some 1, ⟨"Paris", ["B"], "d2", "active"⟩⟩],
      some [⟨some 9, ⟨1, "B", 7, "new", "d2"⟩⟩]⟩ : ImportPayload).expenses.getD []).map PRec.data) ∧
    (⟨⟨[], 1⟩, ⟨[], 1⟩, ⟨[], 1⟩, none, ⟨[], 1⟩,
      ⟨[⟨1, ⟨"Goa", ["A"], "d1", "active"⟩⟩, ⟨2, ⟨"Paris", ["B"], "d2", "active"⟩⟩], 3⟩,
      ⟨[⟨1, ⟨1, "A", 5, "old", "d1"⟩⟩, ⟨2, ⟨2, "B", 7, "new", "d2"⟩⟩], 3⟩⟩ : DB).reminders.recs = (⟨⟨[], 1⟩, ⟨[], 1⟩, ⟨[], 1⟩, none, ⟨[], 1⟩,
      ⟨[⟨1, ⟨"Goa", ["A"], "d1", "active"⟩⟩], 2⟩,
      ⟨[⟨1, ⟨1, "A", 5, "old", "d1"⟩⟩], 2⟩⟩ : DB).reminders.recs ++
      assignIds (⟨⟨[], 1⟩, ⟨[], 1⟩, ⟨[], 1⟩, none, ⟨[], 1⟩,
      ⟨[⟨1, ⟨"Goa", ["A"], "d1", "active"⟩⟩], 2⟩,
      ⟨[⟨1, ⟨1, "A", 5, "old", "d1"⟩⟩], 2⟩⟩ : DB).reminders.nextId (((⟨none, none, none, none, none,
      some [⟨some 1, ⟨"Paris", ["B"], "d2", "active"⟩⟩],
      some [⟨some 9, ⟨1, "B", 7, "new", "d2"⟩⟩]⟩ : ImportPayload).reminders.getD []).map PRec.data) ∧
    (⟨⟨[], 1⟩, ⟨[], 1⟩, ⟨[], 1⟩, none, ⟨[], 1⟩,
      ⟨[⟨1, ⟨"Goa", ["A"], "d1", "active"⟩⟩, ⟨2, ⟨"Paris", ["B"], "d2", "active"⟩⟩], 3⟩,
      ⟨[⟨1, ⟨1, "A", 5, "old", "d1"⟩⟩, ⟨2, ⟨2, "B", 7, "new", "d2"⟩⟩], 3⟩⟩ : DB).savings.recs = (⟨⟨[], 1⟩, ⟨[], 1⟩, ⟨[], 1⟩, none, ⟨[], 1⟩,
      ⟨[⟨1, ⟨"Goa", ["A"], "d1", "active"⟩⟩], 2⟩,
      ⟨[⟨1, ⟨1, "A", 5, "old", "d1"⟩⟩], 2⟩⟩ : DB).savings.recs ++
      assignIds (⟨⟨[], 1⟩, ⟨[], 1⟩, ⟨[], 1⟩, none, ⟨[], 1⟩,
      ⟨[⟨1, ⟨"Goa", ["A"], "d1", "active"⟩⟩], 2⟩,
      ⟨[⟨1, ⟨1, "A", 5, "old", "d1"⟩⟩], 2⟩⟩ : DB).savings.nextId
        (((⟨none, none, none, none, none,
      some [⟨some 1, ⟨"Paris", ["B"], "d2", "active"⟩⟩],
      some [⟨some 9, ⟨1, "B", 7, "new", "d2"⟩⟩]⟩ : ImportPayload).savingsTransactions.getD []).map PRec.data) ∧
    (⟨⟨[], 1⟩, ⟨[], 1⟩, ⟨[], 1⟩, none, ⟨[], 1⟩,
      ⟨[⟨1, ⟨"Goa", ["A"], "d1", "active"⟩⟩, ⟨2, ⟨"Paris", ["B"], "d2", "active"⟩⟩], 3⟩,
      ⟨[⟨1, ⟨1, "A", 5, "old", "d1"⟩⟩, ⟨2, ⟨2, "B", 7, "new", "d2"⟩⟩], 3⟩⟩ : DB).categories.recs = (⟨⟨[], 1⟩, ⟨[], 1⟩, ⟨[], 1⟩, none, ⟨[], 1⟩,
      ⟨[⟨1, ⟨"Goa", ["A"], "d1", "active"⟩⟩], 2⟩,
      ⟨[⟨1, ⟨1, "A", 5, "old", "d1"⟩⟩], 2⟩⟩ : DB).categories.recs ++
      assignIds (⟨⟨[], 1⟩, ⟨[], 1⟩, ⟨[], 1⟩, none, ⟨[], 1⟩,
      ⟨[⟨1, ⟨"Goa", ["A"], "d1", "active"⟩⟩], 2⟩,
      ⟨[⟨1, ⟨1, "A", 5, "old", "d1"⟩⟩], 2⟩⟩ : DB).categories.nextId
        ((((⟨none, none, none, none, none,
      some [⟨some 1, ⟨"Paris", ["B"], "d2", "active"⟩⟩],
      some [⟨some 9, ⟨1, "B", 7, "new", "d2"⟩⟩]⟩ : ImportPayload).categories.getD []).filter
            (fun c => !((⟨⟨[], 1⟩, ⟨[], 1⟩, ⟨[], 1⟩, none, ⟨[], 1⟩,
      ⟨[⟨1, ⟨"Goa", ["A"], "d1", "active"⟩⟩], 2⟩,
      ⟨[⟨1, ⟨1, "A", 5, "old", "d1"⟩⟩], 2⟩⟩ : DB).categories.recs.any
              (fun r => r.data.name == c.data.name)))).map
          (fun c => (⟨c.data.name⟩ : CategoryData))) ∧
    (⟨⟨[], 1⟩, ⟨[], 1⟩, ⟨[], 1⟩, none, ⟨[], 1⟩,
      ⟨[⟨1, ⟨"Goa", ["A"], "d1", "active"⟩⟩, ⟨2, ⟨"Paris", ["B"], "d2", "active"⟩⟩], 3⟩,
      ⟨[⟨1, ⟨1, "A", 5, "old", "d1"⟩⟩, ⟨2, ⟨2, "B", 7, "new", "d2"⟩⟩], 3⟩⟩ : DB).settings = (match (⟨none, none, none, none, none,
      some [⟨some 1, ⟨"Paris", ["B"], "d2", "active"⟩⟩],
      some [⟨some 9, ⟨1, "B", 7, "new", "d2"⟩⟩]⟩ : ImportPayload).settings with
                    | none => (⟨⟨[], 1⟩, ⟨[], 1⟩, ⟨[], 1⟩, none, ⟨[], 1⟩,
      ⟨[⟨1, ⟨"Goa", ["A"], "d1", "active"⟩⟩], 2⟩,
      ⟨[⟨1, ⟨1, "A", 5, "old", "d1"⟩⟩], 2⟩⟩ : DB).settings
                    | some s => some s) ∧
    (⟨⟨[], 1⟩, ⟨[], 1⟩, ⟨[], 1⟩, none, ⟨[], 1⟩,
      ⟨[⟨1, ⟨"Goa", ["A"], "d1", "active"⟩⟩, ⟨2, ⟨"Paris", ["B"], "d2", "active"⟩⟩], 3⟩,
      ⟨[⟨1, ⟨1, "A", 5, "old", "d1"⟩⟩, ⟨2, ⟨2, "B", 7, "new", "d2"⟩⟩], 3⟩⟩ : DB).trips.recs = (⟨⟨[], 1⟩, ⟨[], 1⟩, ⟨[], 1⟩, none, ⟨[], 1⟩,
      ⟨[⟨1, ⟨"Goa", ["A"], "d1", "active"⟩⟩], 2⟩,
      ⟨[⟨1, ⟨1, "A", 5, "old", "d1"⟩⟩], 2⟩⟩ : DB).trips.recs ++
      assignIds (⟨⟨[], 1⟩, ⟨[], 1⟩, ⟨[], 1⟩, none, ⟨[], 1⟩,
      ⟨[⟨1, ⟨"Goa", ["A"], "d1", "active"⟩⟩], 2⟩,
      ⟨[⟨1, ⟨1, "A", 5, "old", "d1"⟩⟩], 2⟩⟩ : DB).trips.nextId (((⟨none, none, none, none, none,
      some [⟨some 1, ⟨"Paris", ["B"], "d2", "active"⟩⟩],
      some [⟨some 9, ⟨1, "B", 7, "new", "d2"⟩⟩]⟩ : ImportPayload).trips.getD []).map PRec.data) ∧
    (⟨⟨[], 1⟩, ⟨[], 1⟩, ⟨[], 1⟩, none, ⟨[], 1⟩,
      ⟨[⟨1, ⟨"Goa", ["A"], "d1", "active"⟩⟩, ⟨2, ⟨"Paris", ["B"], "d2", "active"⟩⟩], 3⟩,
      ⟨[⟨1, ⟨1, "A", 5, "old", "d1"⟩⟩, ⟨2, ⟨2, "B", 7, "new", "d2"⟩⟩], 3⟩⟩ : DB).tripExpenses.recs = (⟨⟨[], 1⟩, ⟨[], 1⟩, ⟨[], 1⟩, none, ⟨[], 1⟩,
      ⟨[⟨1, ⟨"Goa", ["A"], "d1", "active"⟩⟩], 2⟩,
      ⟨[⟨1, ⟨1, "A", 5, "old", "d1"⟩⟩], 2⟩⟩ : DB).tripExpenses.recs ++
      assignIds (⟨⟨[], 1⟩, ⟨[], 1⟩, ⟨[], 1⟩, none, ⟨[], 1⟩,
      ⟨[⟨1, ⟨"Goa", ["A"], "d1", "active"⟩⟩], 2⟩,
      ⟨[⟨1, ⟨1, "A", 5, "old", "d1"⟩⟩], 2⟩⟩ : DB).tripExpenses.nextId
        (expectedTripExpenses (⟨⟨[], 1⟩, ⟨[], 1⟩, ⟨[], 1⟩, none, ⟨[], 1⟩,
      ⟨[⟨1, ⟨"Goa", ["A"], "d1", "active"⟩⟩], 2⟩,
      ⟨[⟨1, ⟨1, "A", 5, "old", "d1"⟩⟩], 2⟩⟩ : DB).trips.nextId ((⟨none, none, none, none, none,
      some [⟨some 1, ⟨"Paris", ["B"], "d2", "active"⟩⟩],
      some [⟨some 9, ⟨1, "B", 7, "new", "d2"⟩⟩]⟩ : ImportPayload).trips.getD [])
          (⟨none, none, none, none, none,
      some [⟨some 1, ⟨"Paris", ["B"], "d2", "active"⟩⟩],
      some [⟨some 9, ⟨1, "B", 7, "new", "d2"⟩⟩]⟩ : ImportPayload).trip_expenses) ∧
    (∀ rOld ∈ (⟨⟨[], 1⟩, ⟨[], 1⟩, ⟨[], 1⟩, none, ⟨[], 1⟩,
      ⟨[⟨1, ⟨"Goa", ["A"], "d1", "active"⟩⟩], 2⟩,
      ⟨[⟨1, ⟨1, "A", 5, "old", "d1"⟩⟩], 2⟩⟩ : DB).trips.recs,
      ∀ rNew ∈ assignIds (⟨⟨[], 1⟩, ⟨[], 1⟩, ⟨[], 1⟩, none, ⟨[], 1⟩,
      ⟨[⟨1, ⟨"Goa", ["A"], "d1", "active"⟩⟩], 2⟩,
      ⟨[⟨1, ⟨1, "A", 5, "old", "d1"⟩⟩], 2⟩⟩ : DB).trips.nextId (((⟨none, none, none, none, none,
      some [⟨some 1, ⟨"Paris", ["B"], "d2", "active"⟩⟩],
      some [⟨some 9, ⟨1, "B", 7, "new", "d2"⟩⟩]⟩ : ImportPayload).trips.getD []).map PRec.data),
        rOld.id ≠ rNew.id) ∧
    (∀ d ∈ expectedTripExpenses (⟨⟨[], 1⟩, ⟨[], 1⟩, ⟨[], 1⟩, none, ⟨[], 1⟩,
      ⟨[⟨1, ⟨"Goa", ["A"], "d1", "active"⟩⟩], 2⟩,
      ⟨[⟨1, ⟨1, "A", 5, "old", "d1"⟩⟩], 2⟩⟩ : DB).trips.nextId ((⟨none, none, none, none, none,
      some [⟨some 1, ⟨"Paris", ["B"], "d2", "active"⟩⟩],
      some [⟨some 9, ⟨1, "B", 7, "new", "d2"⟩⟩]⟩ : ImportPayload).trips.getD [])
        (⟨none, none, none, none, none,
      some [⟨some 1, ⟨"Paris", ["B"], "d2", "active"⟩⟩],
      some [⟨some 9, ⟨1, "B", 7, "new", "d2"⟩⟩]⟩ : ImportPayload).trip_expenses, (⟨⟨[], 1⟩, ⟨[], 1⟩, ⟨[], 1⟩, none, ⟨[], 1⟩,
      ⟨[⟨1, ⟨"Goa", ["A"], "d1", "active"⟩⟩], 2⟩,
      ⟨[⟨1, ⟨1, "A", 5, "old", "d1"⟩⟩], 2⟩⟩ : DB).trips.nextId ≤ d.tripId) :=
  importData_spec
    (⟨⟨[], 1⟩, ⟨[], 1⟩, ⟨[], 1⟩, none, ⟨[], 1⟩,
      ⟨[⟨1, ⟨"Goa", ["A"], "d1", "active"⟩⟩], 2⟩,
      ⟨[⟨1, ⟨1, "A", 5, "old", "d1"⟩⟩], 2⟩⟩ : DB)
    (⟨none, none, none, none, none,
      some [⟨some 1, ⟨"Paris", ["B"], "d2", "active"⟩⟩],
      some [⟨some 9, ⟨1, "B", 7, "new", "d2"⟩⟩]⟩ : ImportPayload)
    (⟨⟨[], 1⟩, ⟨[], 1⟩, ⟨[], 1⟩, none, ⟨[], 1⟩,
      ⟨[⟨1, ⟨"Goa", ["A"], "d1", "active"⟩⟩, ⟨2, ⟨"Paris", ["B"], "d2", "active"⟩⟩], 3⟩,
      ⟨[⟨1, ⟨1, "A", 5, "old", "d1"⟩⟩, ⟨2, ⟨2, "B", 7, "new", "d2"⟩⟩], 3⟩⟩ : DB)
    (by constructor <;> decide) (by decide)
